import Mathlib

/-!
Verification of the resource-conflict scheduling engine of the PDS-6083 backend.

The development shallowly embeds the database-backed FastAPI routes of
`app/scheduler/routes.py`, `app/crew/routes.py` and `app/engineer/routes.py`
as pure functions over an explicit database state `DB`.  Tables are lists of
rows kept in storage (insertion) order; SQLAlchemy `query(...).first()` is
`List.find?`, `query(...).all()` with a filter is `List.filter`, and a
mutation of the row object returned by `.first()` is `updateFirst`.  A request
handler ends in `db.commit()`, so each operation maps the committed state to a
new committed state together with either a response value or a raised
`HTTPException`; an exception raised before `commit` leaves the committed
state unchanged because `get_db` closes the session without committing.

Calendar dates are day numbers, times of day are minutes (0 ≤ t < 1440 for
real inputs), and an instant (`datetime.utcnow()`) is a day/minute pair
compared lexicographically.
-/

namespace Pds

abbrev Date := Nat

abbrev Time := Nat

/-- A UTC instant, as a calendar day plus minute of day. -/
structure Instant where
  day : Date
  minute : Time
deriving DecidableEq, Repr

/-- The combined `datetime(d, t)` is strictly before instant `now`
(`datetime.combine(flight_date, dep) < now`). -/
def beforeNow (d : Date) (t : Time) (now : Instant) : Bool :=
  decide (d < now.day) || (d == now.day && decide (t < now.minute))

/-- `AircraftStatus` enum of `app/database/models.py`. -/
inductive AircraftStatus where
  | active
  | maintenance
  | retired
deriving DecidableEq, Repr

/-- `MaintenanceStatus` enum of `app/database/models.py`. -/
inductive MaintenanceStatus where
  | pending
  | in_progress
  | completed
  | cancelled
deriving DecidableEq, Repr

/-- `MaintenanceType` enum of `app/database/models.py`. -/
inductive MaintenanceType where
  | routine
  | inspection
  | repair
  | overhaul
deriving DecidableEq, Repr

/-- Row of table `routes`. -/
structure Route where
  route_id : Nat
  source_airport_code : String
  destination_airport_code : String
  approved_capacity : Nat
deriving DecidableEq, Repr

/-- Row of table `aircraft`. -/
structure Aircraft where
  registration_number : String
  aircraft_company : String
  model : String
  capacity : Nat
  status : AircraftStatus
deriving DecidableEq, Repr

/-- Row of table `flights`; primary key `(flight_number, date)`. -/
structure Flight where
  flight_number : String
  date : Date
  route_id : Nat
  scheduled_departure_time : Time
  scheduled_arrival_time : Time
  aircraft_registration : String
deriving DecidableEq, Repr

/-- Row of table `crew_schedules`; references `flights` by
`(flight_number, date)` with `ON UPDATE CASCADE, ON DELETE RESTRICT`, and
duplicates the flight departure time. -/
structure CrewSchedule where
  flight_number : String
  date : Date
  scheduled_departure_time : Time
  email_id : String
deriving DecidableEq, Repr

/-- Row of table `crew` (authentication fields omitted). -/
structure Crew where
  email_id : String
  name : String
  phone : Option String
  is_pilot : Bool
deriving DecidableEq, Repr

/-- Row of table `engineers` (authentication fields omitted). -/
structure Engineer where
  email_id : String
  name : String
deriving DecidableEq, Repr

/-- Row of table `maintenance_history`. -/
structure MaintenanceHistory where
  job_id : Nat
  checkin_date : Instant
  checkout_date : Option Instant
  status : MaintenanceStatus
  remarks : Option String
  registration_number : String
  type : MaintenanceType
deriving DecidableEq, Repr

/-- Row of table `engineer_maintenances`. -/
structure EngineerMaintenance where
  job_id : Nat
  engineer_email_id : String
  assigned_date : Instant
  role : String
deriving DecidableEq, Repr

/-- Row of table `aircraft_parts`. -/
structure AircraftPart where
  part_number : String
  part_manufacturer : String
  model : String
  manufacturing_date : Date
  aircraft_registration : String
deriving DecidableEq, Repr

/-- The committed database state.  `next_job_id` models the
`maintenance_history.job_id` autoincrement counter. -/
structure DB where
  routes : List Route
  aircraft : List Aircraft
  flights : List Flight
  crew : List Crew
  crew_schedules : List CrewSchedule
  engineers : List Engineer
  maintenance_history : List MaintenanceHistory
  engineer_maintenances : List EngineerMaintenance
  aircraft_parts : List AircraftPart
  next_job_id : Nat
deriving DecidableEq, Repr

/-- The `HTTPException`s raised by the embedded routes, by reason. -/
inductive Err where
  | duplicateKey
  | routeNotFound
  | aircraftNotFound
  | aircraftNotActive
  | capacityExceeded
  | pastDeparture
  | invalidTimeWindow
  | aircraftDoubleBooked
  | flightNotFound
  | dateChangeConflict
  | deleteRestricted
  | emptyCrewList
  | pastFlight
  | unknownCrew
  | noPilot
  | crewDoubleBooked
  | engineerRecordNotFound
  | aircraftRetired
  | openJobExists
  | jobNotFound
  | jobClosed
  | notLeader
  | noEngineersProvided
  | unknownEngineer
  | noLeaderAfterBatch
  | multipleLeaders
  | alreadyCompleted
  | alreadyCancelled
  | duplicatePartNumber
  | futureManufacturingDate
  | unprocessableEntity
deriving DecidableEq, Repr

/-- Outcome of one request: the committed state after the call, plus either a
response value or the raised error.  The state carried by `fail` is what was
committed at the moment the exception was raised. -/
inductive OpResult (α : Type) where
  | ok (db : DB) (val : α)
  | fail (db : DB) (e : Err)
deriving DecidableEq, Repr

/-- Update the first element satisfying `p` (the row object returned by
`query(...).first()`, mutated in place). -/
def updateFirst (p : α → Bool) (g : α → α) : List α → List α
  | [] => []
  | x :: xs => if p x then g x :: xs else x :: updateFirst p g xs

/-- Remove the first element satisfying `p` (`db.delete` of the row object
returned by `query(...).first()`). -/
def removeFirst (p : α → Bool) : List α → List α
  | [] => []
  | x :: xs => if p x then xs else x :: removeFirst p xs

def DB.findRoute (db : DB) (rid : Nat) : Option Route :=
  db.routes.find? (fun r => r.route_id == rid)

def DB.findAircraft (db : DB) (reg : String) : Option Aircraft :=
  db.aircraft.find? (fun a => a.registration_number == reg)

def DB.findFlight (db : DB) (fn : String) (d : Date) : Option Flight :=
  db.flights.find? (fun f => f.flight_number == fn && f.date == d)

/-- Key of the aircraft double-booking scan of
`validate_flight_business_rules`: an existing flight on the same aircraft and
date whose half-open interval overlaps the candidate `[dep, arr)`
(`Flight.scheduled_departure_time < arr AND Flight.scheduled_arrival_time > dep`). -/
def overlapConflict (f : Flight) (reg : String) (d : Date) (dep arr : Time) : Bool :=
  f.aircraft_registration == reg && f.date == d &&
    decide (f.scheduled_departure_time < arr) && decide (dep < f.scheduled_arrival_time)

/-- The `ignore_existing_flight_pk` exclusion of the double-booking scan:
the row matches the excluded primary key (the scan keeps rows with
`OR(flight_number != n, date != d)`, i.e. those for which this is false). -/
def ignoredByPk (ig : Option (String × Date)) (f : Flight) : Bool :=
  match ig with
  | none => false
  | some (n, d0) => f.flight_number == n && f.date == d0

/-- `validate_flight_business_rules` of `app/scheduler/routes.py`: returns the
first violated rule, or `none` when all checks pass.  `ignorePk` is the
`ignore_existing_flight_pk` parameter excluding the updated flight itself
(`OR(flight_number != n, date != d)`). -/
def validate_flight_business_rules (db : DB) (flight_date : Date) (route_id : Nat)
    (dep arr : Time) (reg : String) (ignorePk : Option (String × Date))
    (now : Instant) : Option Err :=
  match db.findRoute route_id with
  | none => some .routeNotFound
  | some route =>
    match db.findAircraft reg with
    | none => some .aircraftNotFound
    | some ac =>
      if ac.status != AircraftStatus.active then some .aircraftNotActive
      else if ac.capacity > route.approved_capacity then some .capacityExceeded
      else if beforeNow flight_date dep now then some .pastDeparture
      else if arr ≤ dep then some .invalidTimeWindow
      else
        match db.flights.find? (fun f =>
          overlapConflict f reg flight_date dep arr && !(ignoredByPk ignorePk f)) with
        | some _ => some .aircraftDoubleBooked
        | none => none

/-- `FlightCreateRequest` of `app/scheduler/schemas.py`. -/
structure FlightCreateRequest where
  flight_number : String
  route_id : Nat
  date : Date
  scheduled_departure_time : Time
  scheduled_arrival_time : Time
  aircraft_registration : String
deriving DecidableEq, Repr

/-- The flight row persisted by a successful `create_flight`. -/
def mkFlight (r : FlightCreateRequest) : Flight :=
  { flight_number := r.flight_number
    date := r.date
    route_id := r.route_id
    scheduled_departure_time := r.scheduled_departure_time
    scheduled_arrival_time := r.scheduled_arrival_time
    aircraft_registration := r.aircraft_registration }

/-- `create_flight` (`POST /api/scheduler/flights`). -/
def create_flight (db : DB) (r : FlightCreateRequest) (now : Instant) :
    OpResult Flight :=
  match db.findFlight r.flight_number r.date with
  | some _ => .fail db .duplicateKey
  | none =>
    match validate_flight_business_rules db r.date r.route_id
        r.scheduled_departure_time r.scheduled_arrival_time
        r.aircraft_registration none now with
    | some e => .fail db e
    | none =>
      let f := mkFlight r
      .ok { db with flights := db.flights ++ [f] } f

/-- `FlightUpdateRequest` of `app/scheduler/schemas.py`: every field is
optional except `date`, which the schema declares as required. -/
structure FlightUpdateRequest where
  route_id : Option Nat
  date : Date
  scheduled_departure_time : Option Time
  scheduled_arrival_time : Option Time
  aircraft_registration : Option String
deriving DecidableEq, Repr

/-- The JSON body of a `PUT /flights/...` request before Pydantic validation:
any subset of the fields may be present. -/
structure RawFlightUpdate where
  route_id : Option Nat
  date : Option Date
  scheduled_departure_time : Option Time
  scheduled_arrival_time : Option Time
  aircraft_registration : Option String
deriving DecidableEq, Repr

/-- Pydantic validation of `FlightUpdateRequest`: the required `date` field
must be present, every other field defaults to `None`. -/
def parseFlightUpdate (raw : RawFlightUpdate) : Option FlightUpdateRequest :=
  match raw.date with
  | none => none
  | some d =>
    some { route_id := raw.route_id
           date := d
           scheduled_departure_time := raw.scheduled_departure_time
           scheduled_arrival_time := raw.scheduled_arrival_time
           aircraft_registration := raw.aircraft_registration }

/-- The departure-time synchronisation of `update_flight`: the bulk
`UPDATE crew_schedules SET scheduled_departure_time = newDep` filtered on
flight number, `flight.date` (the Python attribute, already holding the
patched date) and the old departure time. -/
def syncCrewDepTime (cs : List CrewSchedule) (fn : String) (dAttr : Date)
    (oldDep newDep : Time) : List CrewSchedule :=
  cs.map (fun s =>
    if s.flight_number == fn && s.date == dAttr &&
        s.scheduled_departure_time == oldDep
    then { s with scheduled_departure_time := newDep } else s)

/-- The `ON UPDATE CASCADE` of the `crew_schedules` foreign key, fired at
commit when the flight's primary-key date changes. -/
def cascadeDateChange (cs : List CrewSchedule) (fn : String)
    (oldDate newDate : Date) : List CrewSchedule :=
  cs.map (fun s =>
    if s.flight_number == fn && s.date == oldDate
    then { s with date := newDate } else s)

/-- `update_flight` (`PUT /api/scheduler/flights/{flight_number}`).

The crew-schedule writes reproduce the source faithfully: the departure-time
synchronisation query filters on `CrewSchedule.date == flight.date` where
`flight.date` is the Python attribute already set to `u.date`, while the rows
still carry their pre-commit dates; the date change itself reaches
`crew_schedules` through the `ON UPDATE CASCADE` foreign key at commit. -/
def update_flight (db : DB) (flight_number : String) (flight_date : Date)
    (u : FlightUpdateRequest) (now : Instant) : OpResult Flight :=
  match db.findFlight flight_number flight_date with
  | none => .fail db .flightNotFound
  | some flight =>
    let new_route_id := u.route_id.getD flight.route_id
    let new_dep := u.scheduled_departure_time.getD flight.scheduled_departure_time
    let new_arr := u.scheduled_arrival_time.getD flight.scheduled_arrival_time
    let new_reg := u.aircraft_registration.getD flight.aircraft_registration
    if u.date != flight.date &&
        (db.findFlight flight.flight_number u.date).isSome then
      .fail db .dateChangeConflict
    else
      match validate_flight_business_rules db u.date new_route_id
          new_dep new_arr new_reg (some (flight.flight_number, flight.date)) now with
      | some e => .fail db e
      | none =>
        let f' : Flight :=
          { flight_number := flight.flight_number
            date := u.date
            route_id := new_route_id
            scheduled_departure_time := new_dep
            scheduled_arrival_time := new_arr
            aircraft_registration := new_reg }
        let cs1 := match u.scheduled_departure_time with
          | none => db.crew_schedules
          | some nd =>
            syncCrewDepTime db.crew_schedules flight.flight_number u.date
              flight.scheduled_departure_time nd
        let cs2 := if u.date != flight.date then
            cascadeDateChange cs1 flight.flight_number flight.date u.date
          else cs1
        let flights' := updateFirst
          (fun f => f.flight_number == flight_number && f.date == flight_date)
          (fun _ => f') db.flights
        .ok { db with flights := flights', crew_schedules := cs2 } f'

/-- The `PUT /flights/...` endpoint: Pydantic parsing then `update_flight`;
a body missing the required `date` field is rejected with 422 before the
handler runs. -/
def update_flight_endpoint (db : DB) (flight_number : String) (flight_date : Date)
    (raw : RawFlightUpdate) (now : Instant) : OpResult Flight :=
  match parseFlightUpdate raw with
  | none => .fail db .unprocessableEntity
  | some u => update_flight db flight_number flight_date u now

/-- `delete_flight` (`DELETE /api/scheduler/flights/{flight_number}`).  The
`crew_schedules` foreign key is declared `ON DELETE RESTRICT` and the
relationship uses `passive_deletes=True`, so the commit is refused by the
store while crew assignments still reference the flight. -/
def delete_flight (db : DB) (fn : String) (d : Date) : OpResult Unit :=
  match db.findFlight fn d with
  | none => .fail db .flightNotFound
  | some flight =>
    if db.crew_schedules.any (fun s =>
        s.flight_number == flight.flight_number && s.date == flight.date) then
      .fail db .deleteRestricted
    else
      let flights' := removeFirst (fun f => f.flight_number == fn && f.date == d) db.flights
      .ok { db with flights := flights' } ()

/-- `CrewAssignmentRequest` of `app/scheduler/schemas.py`. -/
structure CrewAssignmentRequest where
  crew_emails : List String
deriving DecidableEq, Repr

/-- The double-booking scan of `assign_crew_to_flight` for one crew member:
an existing `crew_schedules` row of that member joined to its flight
(`ON (flight_number, date)`), where the joined flight is on the target
flight's date, overlaps it, and is a different flight number. -/
def crewOverlapExists (db : DB) (flight : Flight) (email : String) : Bool :=
  db.crew_schedules.any (fun s =>
    s.email_id == email &&
    db.flights.any (fun f =>
      s.flight_number == f.flight_number && s.date == f.date &&
      f.date == flight.date &&
      decide (f.scheduled_departure_time < flight.scheduled_arrival_time) &&
      decide (flight.scheduled_departure_time < f.scheduled_arrival_time) &&
      f.flight_number != flight.flight_number))

/-- The `DELETE FROM crew_schedules` of `assign_crew_to_flight`: drop the
rows of the target flight. -/
def clearedRows (cs : List CrewSchedule) (flight : Flight) : List CrewSchedule :=
  cs.filter (fun s =>
    !(s.flight_number == flight.flight_number && s.date == flight.date))

/-- The inserts of `assign_crew_to_flight`: one `crew_schedules` row per crew
member, carrying the flight's current departure time. -/
def assignedRows (flight : Flight) (cl : List Crew) : List CrewSchedule :=
  cl.map (fun c =>
    { flight_number := flight.flight_number
      date := flight.date
      scheduled_departure_time := flight.scheduled_departure_time
      email_id := c.email_id })

/-- `assign_crew_to_flight` (`POST /api/scheduler/flights/{flight_number}/crew`):
full replacement of the crew set of one flight.  `crew_members` keeps the
storage order of the `crew` table, as `filter(email_id.in_(...))` does. -/
def assign_crew_to_flight (db : DB) (fn : String) (fdate : Date)
    (payload : CrewAssignmentRequest) (now : Instant) : OpResult (List Crew) :=
  match db.findFlight fn fdate with
  | none => .fail db .flightNotFound
  | some flight =>
    if payload.crew_emails.isEmpty then .fail db .emptyCrewList
    else if decide (flight.date < now.day) ||
        (flight.date == now.day && decide (flight.scheduled_departure_time ≤ now.minute)) then
      .fail db .pastFlight
    else
      let unique_emails := payload.crew_emails.eraseDups
      let crew_members := db.crew.filter (fun c => unique_emails.contains c.email_id)
      if unique_emails.any (fun e => !(crew_members.any (fun c => c.email_id == e))) then
        .fail db .unknownCrew
      else if !(crew_members.any (fun c => c.is_pilot)) then
        .fail db .noPilot
      else if crew_members.any (fun c => crewOverlapExists db flight c.email_id) then
        .fail db .crewDoubleBooked
      else
        let cleared := clearedRows db.crew_schedules flight
        let newRows := assignedRows flight crew_members
        .ok { db with crew_schedules := cleared ++ newRows } crew_members

/-- `get_flight_crew` (`GET /api/scheduler/flights/{flight_number}/crew`):
the crew members assigned to the flight, in the storage order of the `crew`
table (the final query has no `order_by`). -/
def get_flight_crew (db : DB) (fn : String) (fdate : Date) : OpResult (List Crew) :=
  match db.findFlight fn fdate with
  | none => .fail db .flightNotFound
  | some flight =>
    let schedules := db.crew_schedules.filter (fun s =>
      s.flight_number == flight.flight_number && s.date == flight.date)
    if schedules.isEmpty then .ok db []
    else
      let crew_emails := schedules.map (fun s => s.email_id)
      .ok db (db.crew.filter (fun c => crew_emails.contains c.email_id))

/-- `_compute_duration_minutes` of `app/crew/routes.py`: minutes from
departure to arrival, treating an arrival at or before the departure as
landing the following day (`if end <= start: end += timedelta(days=1)`). -/
def compute_duration_minutes (flight_date : Date) (dep arr : Time) : Nat :=
  let _ := flight_date
  if arr ≤ dep then arr + 1440 - dep else arr - dep

/-- The base query of `crew_dashboard`: `Flight` joined to `CrewSchedule` on
`CrewSchedule.flight_number == Flight.flight_number` only (the date column is
not part of the join), inner-joined to `Route`, filtered to the crew member;
one row per matching (flight, schedule, route) combination. -/
def crewDashboardRows (db : DB) (email : String) : List Flight :=
  db.flights.flatMap (fun f =>
    (db.crew_schedules.filter (fun s =>
        s.flight_number == f.flight_number && s.email_id == email)).flatMap (fun _ =>
      (db.routes.filter (fun r => r.route_id == f.route_id)).map (fun _ => f)))

/-- The past partition of the dashboard base query:
`date < today OR (date == today AND scheduled_arrival_time < time_now)`. -/
def crewPastRows (db : DB) (email : String) (now : Instant) : List Flight :=
  (crewDashboardRows db email).filter (fun f =>
    decide (f.date < now.day) ||
    (f.date == now.day && decide (f.scheduled_arrival_time < now.minute)))

/-- The upcoming partition of the dashboard base query:
`date > today OR (date == today AND scheduled_departure_time >= time_now)`. -/
def crewUpcomingRows (db : DB) (email : String) (now : Instant) : List Flight :=
  (crewDashboardRows db email).filter (fun f =>
    decide (now.day < f.date) ||
    (f.date == now.day && decide (now.minute ≤ f.scheduled_departure_time)))

/-- `total_minutes` of `crew_dashboard`: the sum of
`_compute_duration_minutes` over the past partition (the reported
`total_hours_completed` is this value divided by 60). -/
def total_minutes_completed (db : DB) (email : String) (now : Instant) : Nat :=
  (crewPastRows db email now).foldl (fun acc f =>
    acc + compute_duration_minutes f.date f.scheduled_departure_time
      f.scheduled_arrival_time) 0

/-- Modelled from the spec: the `totalHoursCompleted` aggregate as §4.4
describes it, computed over the crew member's assignments — each
`crew_schedules` row of the member, resolved to its flight instance by the
full `(flight_number, date)` key — restricted to past flights (arrival
before now), in minutes. -/
def specTotalMinutesCompleted (db : DB) (email : String) (now : Instant) : Nat :=
  (db.crew_schedules.filter (fun s => s.email_id == email)).foldl (fun acc s =>
    match db.findFlight s.flight_number s.date with
    | some f =>
      if decide (f.date < now.day) ||
          (f.date == now.day && decide (f.scheduled_arrival_time < now.minute)) then
        acc + compute_duration_minutes f.date f.scheduled_departure_time
          f.scheduled_arrival_time
      else acc
    | none => acc) 0

/-- The distinguished leadership role string (`LEADER_ROLE` in
`app/engineer/routes.py`). -/
def LEADER_ROLE : String := "Leader"

/-- The leader check shared by `add_engineers_to_job` and
`close_maintenance_job`: the caller's `engineer_maintenances` link for the
job exists and carries the leader role. -/
def isJobLeader (db : DB) (job_id : Nat) (email : String) : Bool :=
  match db.engineer_maintenances.find? (fun l =>
      l.job_id == job_id && l.engineer_email_id == email) with
  | some link => link.role == LEADER_ROLE
  | none => false

/-- `MaintenanceJobCreateRequest` (imported by `app/engineer/routes.py`; its
fields are the ones the handler reads: `aircraft_registration`, `type`,
`remarks`). -/
structure MaintenanceJobCreateRequest where
  aircraft_registration : String
  type : MaintenanceType
  remarks : Option String
deriving DecidableEq, Repr

/-- `create_job` (`POST /api/engineer/jobs`): opens a maintenance job in
`pending` with a null checkout, forces the aircraft into `maintenance`, and
assigns the requesting engineer as leader. -/
def create_job (db : DB) (payload : MaintenanceJobCreateRequest)
    (userEmail : String) (now : Instant) : OpResult Unit :=
  if !(db.engineers.any (fun e => e.email_id == userEmail)) then
    .fail db .engineerRecordNotFound
  else
    match db.findAircraft payload.aircraft_registration with
    | none => .fail db .aircraftNotFound
    | some ac =>
      if ac.status == AircraftStatus.retired then .fail db .aircraftRetired
      else if db.maintenance_history.any (fun m =>
          m.registration_number == payload.aircraft_registration &&
          (m.status == MaintenanceStatus.pending ||
           m.status == MaintenanceStatus.in_progress)) then
        .fail db .openJobExists
      else
        let mh : MaintenanceHistory :=
          { job_id := db.next_job_id
            checkin_date := now
            checkout_date := none
            status := MaintenanceStatus.pending
            remarks := payload.remarks
            registration_number := payload.aircraft_registration
            type := payload.type }
        let aircraft' := if ac.status != AircraftStatus.maintenance then
            updateFirst (fun a => a.registration_number == payload.aircraft_registration)
              (fun a => { a with status := AircraftStatus.maintenance }) db.aircraft
          else db.aircraft
        let em : EngineerMaintenance :=
          { job_id := db.next_job_id
            engineer_email_id := userEmail
            assigned_date := now
            role := LEADER_ROLE }
        .ok { db with
                aircraft := aircraft'
                maintenance_history := db.maintenance_history ++ [mh]
                engineer_maintenances := db.engineer_maintenances ++ [em]
                next_job_id := db.next_job_id + 1 } ()

/-- One entry of `AddEngineersToJobRequest.engineers`. -/
structure EngineerAssignmentItem where
  email_id : String
  role : String
deriving DecidableEq, Repr

/-- `AddEngineersToJobRequest` (imported by `app/engineer/routes.py`; the
handler reads `payload.engineers` with `email_id` and `role` per item). -/
structure AddEngineersToJobRequest where
  engineers : List EngineerAssignmentItem
deriving DecidableEq, Repr

/-- The upsert loop of `add_engineers_to_job` applied to the session: update
the role of an already linked engineer, insert a new link otherwise; `none`
when some engineer does not exist (the `HTTPException` raised mid-loop, the
pending session changes being discarded). -/
def upsertEngineerItems (dbEngineers : List Engineer) (job_id : Nat) (now : Instant) :
    List EngineerMaintenance → List EngineerAssignmentItem →
    Option (List EngineerMaintenance)
  | links, [] => some links
  | links, item :: rest =>
    if dbEngineers.any (fun e => e.email_id == item.email_id) then
      let links' :=
        if links.any (fun l => l.job_id == job_id && l.engineer_email_id == item.email_id) then
          updateFirst (fun l => l.job_id == job_id && l.engineer_email_id == item.email_id)
            (fun l => { l with role := item.role }) links
        else
          links ++ [{ job_id := job_id
                      engineer_email_id := item.email_id
                      assigned_date := now
                      role := item.role }]
      upsertEngineerItems dbEngineers job_id now links' rest
    else none

/-- The leader recount of `add_engineers_to_job`: assignments of the job
carrying the leader role. -/
def leaderCount (links : List EngineerMaintenance) (job_id : Nat) : Nat :=
  (links.filter (fun l => l.job_id == job_id && l.role == LEADER_ROLE)).length

/-- `add_engineers_to_job` (`POST /api/engineer/jobs/{job_id}/assign-engineers`):
upserts the batch, then recounts the job's leaders; zero or more than one
leader rolls the whole batch back. -/
def add_engineers_to_job (db : DB) (job_id : Nat) (payload : AddEngineersToJobRequest)
    (userEmail : String) (now : Instant) : OpResult Unit :=
  match db.maintenance_history.find? (fun m => m.job_id == job_id) with
  | none => .fail db .jobNotFound
  | some mh =>
    if mh.status == MaintenanceStatus.completed ||
        mh.status == MaintenanceStatus.cancelled then
      .fail db .jobClosed
    else if !(isJobLeader db job_id userEmail) then
      .fail db .notLeader
    else if payload.engineers.isEmpty then
      .fail db .noEngineersProvided
    else
      match upsertEngineerItems db.engineers job_id now
          db.engineer_maintenances payload.engineers with
      | none => .fail db .unknownEngineer
      | some links' =>
        if leaderCount links' job_id == 0 then .fail db .noLeaderAfterBatch
        else if leaderCount links' job_id > 1 then .fail db .multipleLeaders
        else .ok { db with engineer_maintenances := links' } ()

/-- The updated job row written by `close_maintenance_job`: status
`completed`, checkout timestamp now, remarks replaced when supplied. -/
def closedJob (mh : MaintenanceHistory) (remarks : Option String)
    (now : Instant) : MaintenanceHistory :=
  { mh with
      status := MaintenanceStatus.completed
      checkout_date := some now
      remarks := match remarks with
        | some r => some r
        | none => mh.remarks }

/-- `close_maintenance_job` (`POST /api/engineer/jobs/{job_id}/close`):
the leader completes a non-terminal job; the checkout timestamp is set to
now, and the aircraft status reverts to `active` only if it is currently
`maintenance`. -/
def close_maintenance_job (db : DB) (job_id : Nat) (remarks : Option String)
    (userEmail : String) (now : Instant) : OpResult Unit :=
  match db.maintenance_history.find? (fun m => m.job_id == job_id) with
  | none => .fail db .jobNotFound
  | some mh =>
    if mh.status == MaintenanceStatus.completed then .fail db .alreadyCompleted
    else if mh.status == MaintenanceStatus.cancelled then .fail db .alreadyCancelled
    else if !(isJobLeader db job_id userEmail) then .fail db .notLeader
    else
      let mh' : MaintenanceHistory := closedJob mh remarks now
      let jobs' := updateFirst (fun m => m.job_id == job_id) (fun _ => mh')
        db.maintenance_history
      let aircraft' := match db.findAircraft mh.registration_number with
        | some a =>
          if a.status == AircraftStatus.maintenance then
            updateFirst (fun x => x.registration_number == mh.registration_number)
              (fun x => { x with status := AircraftStatus.active }) db.aircraft
          else db.aircraft
        | none => db.aircraft
      .ok { db with maintenance_history := jobs', aircraft := aircraft' } ()

/-- `AircraftPartCreateRequest` (imported by `app/engineer/routes.py`; the
handler reads `part_number`, `part_manufacturer`, `model`,
`manufacturing_date`). -/
structure AircraftPartCreateRequest where
  part_number : String
  part_manufacturer : String
  model : String
  manufacturing_date : Date
deriving DecidableEq, Repr

/-- `add_part_to_aircraft` (`POST /api/engineer/aircrafts/{registration_number}/parts`). -/
def add_part_to_aircraft (db : DB) (reg : String)
    (payload : AircraftPartCreateRequest) (today : Date) : OpResult Unit :=
  match db.findAircraft reg with
  | none => .fail db .aircraftNotFound
  | some ac =>
    if ac.status == AircraftStatus.retired then .fail db .aircraftRetired
    else if decide (today < payload.manufacturing_date) then
      .fail db .futureManufacturingDate
    else if db.aircraft_parts.any (fun p => p.part_number == payload.part_number) then
      .fail db .duplicatePartNumber
    else
      let part : AircraftPart :=
        { part_number := payload.part_number
          part_manufacturer := payload.part_manufacturer
          model := payload.model
          manufacturing_date := payload.manufacturing_date
          aircraft_registration := reg }
      .ok { db with aircraft_parts := db.aircraft_parts ++ [part] } ()

/-! ### List utility lemmas for `updateFirst` / `removeFirst` -/

theorem mem_updateFirst {α : Type} {p : α → Bool} {g : α → α} {l : List α} {x : α}
    (hx : x ∈ updateFirst p g l) : x ∈ l ∨ ∃ y, y ∈ l ∧ p y = true ∧ x = g y := by
  induction l with
  | nil => simp [updateFirst] at hx
  | cons a as ih =>
    rw [updateFirst] at hx
    by_cases hpa : p a = true
    · rw [if_pos hpa] at hx
      rcases List.mem_cons.mp hx with h | h
      · exact Or.inr ⟨a, List.mem_cons_self a as, hpa, h⟩
      · exact Or.inl (List.mem_cons_of_mem a h)
    · rw [if_neg hpa] at hx
      rcases List.mem_cons.mp hx with h | h
      · exact Or.inl (h ▸ List.mem_cons_self x as)
      · rcases ih h with h' | ⟨y, hy, hpy, hxy⟩
        · exact Or.inl (List.mem_cons_of_mem a h')
        · exact Or.inr ⟨y, List.mem_cons_of_mem a hy, hpy, hxy⟩

theorem mem_updateFirst_of_unique {α : Type} {p : α → Bool} {g : α → α} {l : List α}
    (hu : l.Pairwise (fun a b => ¬(p a = true ∧ p b = true))) {x : α}
    (hx : x ∈ updateFirst p g l) :
    (x ∈ l ∧ p x = false) ∨ ∃ y, y ∈ l ∧ p y = true ∧ x = g y := by
  induction l with
  | nil => simp [updateFirst] at hx
  | cons a as ih =>
    rw [updateFirst] at hx
    rcases List.pairwise_cons.mp hu with ⟨ha, has⟩
    by_cases hpa : p a = true
    · rw [if_pos hpa] at hx
      rcases List.mem_cons.mp hx with h | h
      · exact Or.inr ⟨a, List.mem_cons_self a as, hpa, h⟩
      · refine Or.inl ⟨List.mem_cons_of_mem a h, ?_⟩
        have hnot := ha x h
        revert hnot
        cases hpx : p x
        · intro _; rfl
        · intro hnot; exact absurd ⟨hpa, rfl⟩ hnot
    · rw [if_neg hpa] at hx
      rcases List.mem_cons.mp hx with h | h
      · subst h
        refine Or.inl ⟨List.mem_cons_self x as, ?_⟩
        revert hpa; cases p x <;> simp
      · rcases ih has h with ⟨h1, h2⟩ | ⟨y, hy, hpy, hxy⟩
        · exact Or.inl ⟨List.mem_cons_of_mem a h1, h2⟩
        · exact Or.inr ⟨y, List.mem_cons_of_mem a hy, hpy, hxy⟩

theorem pairwise_updateFirst {α : Type} {R : α → α → Prop} {p : α → Bool} {g : α → α}
    {l : List α} (hsym : ∀ a b, R a b → R b a) (hl : l.Pairwise R)
    (hg : ∀ x ∈ l, ∀ y ∈ l, p y = true → R x y → R x (g y)) :
    (updateFirst p g l).Pairwise R := by
  induction l with
  | nil => simp [updateFirst]
  | cons a as ih =>
    rcases List.pairwise_cons.mp hl with ⟨ha, has⟩
    rw [updateFirst]
    by_cases hpa : p a = true
    · rw [if_pos hpa]
      refine List.pairwise_cons.mpr ⟨?_, has⟩
      intro b hb
      exact hsym _ _ (hg b (List.mem_cons_of_mem a hb) a (List.mem_cons_self a as) hpa
        (hsym _ _ (ha b hb)))
    · rw [if_neg hpa]
      refine List.pairwise_cons.mpr ⟨?_, ih has ?_⟩
      · intro b hb
        rcases mem_updateFirst hb with h | ⟨y, hy, hpy, hby⟩
        · exact ha b h
        · have := hg a (List.mem_cons_self a as) y (List.mem_cons_of_mem a hy) hpy (ha y hy)
          rwa [← hby] at this
      · intro x hx y hy hpy hR
        exact hg x (List.mem_cons_of_mem a hx) y (List.mem_cons_of_mem a hy) hpy hR

theorem updateFirst_eq_self {α : Type} {p : α → Bool} {g : α → α} {l : List α}
    (h : ∀ y ∈ l, p y = true → g y = y) : updateFirst p g l = l := by
  induction l with
  | nil => rfl
  | cons a as ih =>
    rw [updateFirst]
    by_cases hpa : p a = true
    · rw [if_pos hpa, h a (List.mem_cons_self a as) hpa]
    · rw [if_neg hpa, ih (fun y hy => h y (List.mem_cons_of_mem a hy))]

theorem find?_updateFirst {α : Type} {p : α → Bool} {g : α → α} {l : List α}
    (hg : ∀ y, p y = true → p (g y) = true) :
    (updateFirst p g l).find? p = (l.find? p).map g := by
  induction l with
  | nil => rfl
  | cons a as ih =>
    rw [updateFirst]
    by_cases hpa : p a = true
    · rw [if_pos hpa, List.find?_cons_of_pos _ (hg a hpa), List.find?_cons_of_pos _ hpa,
        Option.map_some']
    · rw [if_neg hpa, List.find?_cons_of_neg _ hpa, List.find?_cons_of_neg _ hpa, ih]

theorem removeFirst_sublist {α : Type} (p : α → Bool) (l : List α) :
    List.Sublist (removeFirst p l) l := by
  induction l with
  | nil => simp [removeFirst]
  | cons a as ih =>
    rw [removeFirst]
    by_cases hpa : p a = true
    · rw [if_pos hpa]; exact List.sublist_cons_self a as
    · rw [if_neg hpa]; exact List.Sublist.cons₂ a ih

theorem find?_append_of_none {α : Type} {p : α → Bool} {l₁ l₂ : List α}
    (h : l₁.find? p = none) : (l₁ ++ l₂).find? p = l₂.find? p := by
  induction l₁ with
  | nil => rfl
  | cons a as ih =>
    rw [List.find?_cons] at h
    rcases hpa : p a with hv | hv
    · rw [List.cons_append, List.find?_cons_of_neg _ (by simp [hpa])]
      rw [hpa] at h
      exact ih h
    · rw [hpa] at h
      simp at h

/-! ### Characterisation of lookups and of the shared flight validation -/

theorem findFlight_some {db : DB} {fn : String} {d : Date} {f : Flight}
    (h : db.findFlight fn d = some f) :
    f ∈ db.flights ∧ f.flight_number = fn ∧ f.date = d := by
  have h1 := List.mem_of_find?_eq_some h
  have h2 := List.find?_some h
  simp only [Bool.and_eq_true, beq_iff_eq] at h2
  exact ⟨h1, h2.1, h2.2⟩

theorem findFlight_none {db : DB} {fn : String} {d : Date}
    (h : db.findFlight fn d = none) :
    ∀ f ∈ db.flights, ¬(f.flight_number = fn ∧ f.date = d) := by
  intro f hf
  have := List.find?_eq_none.mp h f hf
  simpa using this

theorem overlapConflict_eq_true_iff (f : Flight) (reg : String) (d : Date)
    (dep arr : Time) :
    overlapConflict f reg d dep arr = true ↔
      f.aircraft_registration = reg ∧ f.date = d ∧
      f.scheduled_departure_time < arr ∧ dep < f.scheduled_arrival_time := by
  simp [overlapConflict, and_assoc]

/-- All-checks-pass characterisation of `validate_flight_business_rules`. -/
theorem validate_none_iff (db : DB) (d : Date) (rid : Nat) (dep arr : Time)
    (reg : String) (ig : Option (String × Date)) (now : Instant) :
    validate_flight_business_rules db d rid dep arr reg ig now = none ↔
      (∃ rt ac, db.findRoute rid = some rt ∧ db.findAircraft reg = some ac ∧
        ac.status = AircraftStatus.active ∧ ac.capacity ≤ rt.approved_capacity) ∧
      beforeNow d dep now = false ∧ dep < arr ∧
      ∀ f ∈ db.flights, ignoredByPk ig f = false →
        ¬(f.aircraft_registration = reg ∧ f.date = d ∧
          f.scheduled_departure_time < arr ∧ dep < f.scheduled_arrival_time) := by
  unfold validate_flight_business_rules
  cases hrt : db.findRoute rid with
  | none =>
    dsimp only
    constructor
    · intro h; exact Option.noConfusion h
    · rintro ⟨⟨rt, ac, hrt', -⟩, -⟩; exact Option.noConfusion hrt'
  | some rt =>
    cases hac : db.findAircraft reg with
    | none =>
      dsimp only
      constructor
      · intro h; exact Option.noConfusion h
      · rintro ⟨⟨rt', ac, -, hac', -⟩, -⟩; exact Option.noConfusion hac'
    | some ac =>
      dsimp only
      by_cases hst : ac.status = AircraftStatus.active
      · rw [if_neg (by simp [hst])]
        by_cases hcap : ac.capacity > rt.approved_capacity
        · rw [if_pos hcap]
          constructor
          · intro h; exact Option.noConfusion h
          · rintro ⟨⟨rt', ac', hrt', hac', -, hcap'⟩, -⟩
            injection hrt' with h1
            injection hac' with h2
            subst h1; subst h2
            exact absurd hcap' (Nat.not_le.mpr hcap)
        · rw [if_neg hcap]
          cases hpast : beforeNow d dep now with
          | true =>
            rw [if_pos rfl]
            constructor
            · intro h; exact Option.noConfusion h
            · rintro ⟨-, hpast', -, -⟩; exact absurd hpast' (by decide)
          | false =>
            rw [if_neg (by simp)]
            by_cases htw : arr ≤ dep
            · rw [if_pos htw]
              constructor
              · intro h; exact Option.noConfusion h
              · rintro ⟨-, -, htw', -⟩; exact absurd htw' (Nat.not_lt.mpr htw)
            · rw [if_neg htw]
              cases hov : db.flights.find? (fun f =>
                  overlapConflict f reg d dep arr && !(ignoredByPk ig f)) with
              | some f0 =>
                constructor
                · intro h; exact Option.noConfusion h
                · rintro ⟨-, -, -, hall⟩
                  have hmem := List.mem_of_find?_eq_some hov
                  have hf0 := List.find?_some hov
                  simp only [Bool.and_eq_true, Bool.not_eq_true',
                    overlapConflict_eq_true_iff] at hf0
                  exact absurd hf0.1 (hall f0 hmem hf0.2)
              | none =>
                constructor
                · intro _
                  refine ⟨⟨rt, ac, rfl, rfl, hst, Nat.not_lt.mp hcap⟩, rfl, Nat.not_le.mp htw, ?_⟩
                  intro f hf hig hconf
                  have := List.find?_eq_none.mp hov f hf
                  simp only [Bool.and_eq_true, Bool.not_eq_true',
                    overlapConflict_eq_true_iff, not_and] at this
                  exact this hconf hig
                · intro _; rfl
      · rw [if_pos (by simp [hst])]
        constructor
        · intro h; exact Option.noConfusion h
        · rintro ⟨⟨rt', ac', hrt', hac', hst', -⟩, -⟩
          injection hac' with h2
          subst h2
          exact absurd hst' hst

/-! ### Error characterisation of `create_flight` -/

/-- The rejection causes of `createFlight`: duplicate key, dangling route or
aircraft reference, inactive aircraft, capacity above the route ceiling,
non-positive time window or past departure, or an overlapping flight on the
same aircraft and date. -/
def CreateFlightRejected (db : DB) (r : FlightCreateRequest) (now : Instant) : Prop :=
  db.findFlight r.flight_number r.date ≠ none ∨
  db.findRoute r.route_id = none ∨
  db.findAircraft r.aircraft_registration = none ∨
  (∃ ac, db.findAircraft r.aircraft_registration = some ac ∧
    ac.status ≠ AircraftStatus.active) ∨
  (∃ rt ac, db.findRoute r.route_id = some rt ∧
    db.findAircraft r.aircraft_registration = some ac ∧
    rt.approved_capacity < ac.capacity) ∨
  r.scheduled_arrival_time ≤ r.scheduled_departure_time ∨
  beforeNow r.date r.scheduled_departure_time now = true ∨
  (∃ f ∈ db.flights, f.aircraft_registration = r.aircraft_registration ∧
    f.date = r.date ∧ f.scheduled_departure_time < r.scheduled_arrival_time ∧
    r.scheduled_departure_time < f.scheduled_arrival_time)

/-- C3: `createFlight` fails with an error if and only if one of the listed
conditions holds (duplicate `(flightNumber, date)` key, dangling route or
aircraft, inactive aircraft, capacity exceeded, invalid time window or past
departure, or aircraft double-booking); otherwise it succeeds and persists
the new flight instance. -/
theorem create_flight_error_iff (db : DB) (r : FlightCreateRequest) (now : Instant) :
    ((∃ db₂ e, create_flight db r now = .fail db₂ e) ↔ CreateFlightRejected db r now) ∧
    (¬ CreateFlightRejected db r now →
      create_flight db r now =
        .ok { db with flights := db.flights ++ [mkFlight r] } (mkFlight r)) := by
  have hval := validate_none_iff db r.date r.route_id r.scheduled_departure_time
    r.scheduled_arrival_time r.aircraft_registration none now
  cases hdup : db.findFlight r.flight_number r.date with
  | some f0 =>
    have hrej : CreateFlightRejected db r now := Or.inl (by simp [hdup])
    exact ⟨⟨fun _ => hrej,
      fun _ => ⟨db, Err.duplicateKey, by simp [create_flight, hdup]⟩⟩,
      fun hn => absurd hrej hn⟩
  | none =>
    cases hv : validate_flight_business_rules db r.date r.route_id
        r.scheduled_departure_time r.scheduled_arrival_time
        r.aircraft_registration none now with
    | some e =>
      have hrej : CreateFlightRejected db r now := by
        by_contra hnrej
        rw [CreateFlightRejected] at hnrej
        push_neg at hnrej
        obtain ⟨-, hrtn, hacn, hstn, hcapn, htwn, hpastn, hovn⟩ := hnrej
        cases hrt : db.findRoute r.route_id with
        | none => exact hrtn hrt
        | some rt =>
          cases hac : db.findAircraft r.aircraft_registration with
          | none => exact hacn hac
          | some ac =>
            have hst : ac.status = AircraftStatus.active := hstn ac hac
            have hcap : ac.capacity ≤ rt.approved_capacity := hcapn rt ac hrt hac
            have hpast : beforeNow r.date r.scheduled_departure_time now = false := by
              cases hb : beforeNow r.date r.scheduled_departure_time now
              · rfl
              · exact absurd hb hpastn
            have hok : validate_flight_business_rules db r.date r.route_id
                r.scheduled_departure_time r.scheduled_arrival_time
                r.aircraft_registration none now = none := by
              refine hval.mpr ⟨⟨rt, ac, hrt, hac, hst, hcap⟩, hpast, htwn, ?_⟩
              intro f hf _ hconj
              exact absurd hconj.2.2.2 (Nat.not_lt.mpr
                (hovn f hf hconj.1 hconj.2.1 hconj.2.2.1))
            rw [hok] at hv
            exact Option.noConfusion hv
      refine ⟨⟨fun _ => hrej, fun _ => ⟨db, e, by simp [create_flight, hdup, hv]⟩⟩,
        fun hn => absurd hrej hn⟩
    | none =>
      obtain ⟨⟨rt, ac, hrt0, hac0, hst, hcap⟩, hpast, htw, hov⟩ := hval.mp hv
      have hnrej : ¬ CreateFlightRejected db r now := by
        rintro (h | h | h | ⟨ac', hac', hst'⟩ | ⟨rt', ac', hrt', hac', hcap'⟩ |
          h | h | ⟨f, hf, h1, h2, h3, h4⟩)
        · exact h hdup
        · rw [hrt0] at h; exact Option.noConfusion h
        · rw [hac0] at h; exact Option.noConfusion h
        · rw [hac0] at hac'; injection hac' with he; subst he; exact hst' hst
        · rw [hrt0] at hrt'; injection hrt' with he; subst he
          rw [hac0] at hac'; injection hac' with he'; subst he'
          exact absurd hcap' (Nat.not_lt.mpr hcap)
        · exact absurd h (Nat.not_le.mpr htw)
        · rw [hpast] at h; exact Bool.noConfusion h
        · exact (hov f hf rfl) ⟨h1, h2, h3, h4⟩
      refine ⟨⟨?_, fun hr => absurd hr hnrej⟩, fun _ => ?_⟩
      · rintro ⟨db₂, e, h⟩
        rw [show create_flight db r now =
            .ok { db with flights := db.flights ++ [mkFlight r] } (mkFlight r) from
          by simp [create_flight, hdup, hv]] at h
        exact OpResult.noConfusion h
      · simp [create_flight, hdup, hv]

/-! ### Success inversion of the flight mutations -/

theorem create_flight_ok_inv {db db' : DB} {r : FlightCreateRequest} {now : Instant}
    {f : Flight} (h : create_flight db r now = .ok db' f) :
    db.findFlight r.flight_number r.date = none ∧
    validate_flight_business_rules db r.date r.route_id r.scheduled_departure_time
      r.scheduled_arrival_time r.aircraft_registration none now = none ∧
    db' = { db with flights := db.flights ++ [mkFlight r] } ∧ f = mkFlight r := by
  revert h
  unfold create_flight
  cases hdup : db.findFlight r.flight_number r.date with
  | some f0 => intro h; exact OpResult.noConfusion h
  | none =>
    cases hv : validate_flight_business_rules db r.date r.route_id
        r.scheduled_departure_time r.scheduled_arrival_time
        r.aircraft_registration none now with
    | some e => intro h; exact OpResult.noConfusion h
    | none =>
      intro h
      injection h with h1 h2
      exact ⟨rfl, rfl, h1.symm, h2.symm⟩

/-- The flight row written by a successful `update_flight`: the effective
post-patch values, under the unchanged flight number. -/
def patchedFlight (flight : Flight) (u : FlightUpdateRequest) : Flight :=
  { flight_number := flight.flight_number
    date := u.date
    route_id := u.route_id.getD flight.route_id
    scheduled_departure_time :=
      u.scheduled_departure_time.getD flight.scheduled_departure_time
    scheduled_arrival_time :=
      u.scheduled_arrival_time.getD flight.scheduled_arrival_time
    aircraft_registration :=
      u.aircraft_registration.getD flight.aircraft_registration }

theorem update_flight_ok_inv {db db' : DB} {fn : String} {d : Date}
    {u : FlightUpdateRequest} {now : Instant} {fres : Flight}
    (h : update_flight db fn d u now = .ok db' fres) :
    ∃ flight, db.findFlight fn d = some flight ∧
      (u.date ≠ flight.date → db.findFlight flight.flight_number u.date = none) ∧
      validate_flight_business_rules db u.date (u.route_id.getD flight.route_id)
        (u.scheduled_departure_time.getD flight.scheduled_departure_time)
        (u.scheduled_arrival_time.getD flight.scheduled_arrival_time)
        (u.aircraft_registration.getD flight.aircraft_registration)
        (some (flight.flight_number, flight.date)) now = none ∧
      fres = patchedFlight flight u ∧
      db' = { db with
        flights := updateFirst (fun f => f.flight_number == fn && f.date == d)
          (fun _ => patchedFlight flight u) db.flights
        crew_schedules :=
          (let cs1 := match u.scheduled_departure_time with
            | none => db.crew_schedules
            | some nd => syncCrewDepTime db.crew_schedules flight.flight_number
                u.date flight.scheduled_departure_time nd
          if u.date != flight.date then
            cascadeDateChange cs1 flight.flight_number flight.date u.date
          else cs1) } := by
  revert h
  unfold update_flight
  cases hfind : db.findFlight fn d with
  | none => intro h; exact OpResult.noConfusion h
  | some flight =>
    dsimp only
    by_cases hdc : (u.date != flight.date &&
        (db.findFlight flight.flight_number u.date).isSome) = true
    · rw [if_pos hdc]
      intro h; exact OpResult.noConfusion h
    · rw [if_neg hdc]
      cases hv : validate_flight_business_rules db u.date
          (u.route_id.getD flight.route_id)
          (u.scheduled_departure_time.getD flight.scheduled_departure_time)
          (u.scheduled_arrival_time.getD flight.scheduled_arrival_time)
          (u.aircraft_registration.getD flight.aircraft_registration)
          (some (flight.flight_number, flight.date)) now with
      | some e => intro h; exact OpResult.noConfusion h
      | none =>
        intro h
        injection h with h1 h2
        refine ⟨flight, rfl, ?_, hv, h2.symm, h1.symm⟩
        intro hne
        simp only [Bool.and_eq_true, bne_iff_ne, not_and] at hdc
        have hnone := hdc hne
        cases hoo : db.findFlight flight.flight_number u.date with
        | none => rfl
        | some ff => rw [hoo] at hnone; simp at hnone

theorem delete_flight_ok_inv {db db' : DB} {fn : String} {d : Date}
    (h : delete_flight db fn d = .ok db' ()) :
    ∃ flight, db.findFlight fn d = some flight ∧
      db' = { db with
        flights := removeFirst (fun f => f.flight_number == fn && f.date == d) db.flights } := by
  revert h
  unfold delete_flight
  cases hfind : db.findFlight fn d with
  | none => intro h; exact OpResult.noConfusion h
  | some flight =>
    dsimp only
    by_cases hcs : (db.crew_schedules.any fun s =>
        s.flight_number == flight.flight_number && s.date == flight.date) = true
    · rw [if_pos hcs]; intro h; exact OpResult.noConfusion h
    · rw [if_neg hcs]; intro h; injection h with h1 h2; exact ⟨flight, rfl, h1.symm⟩

/-! ### The aircraft no-overlap invariant -/

/-- Composite primary key of a flight instance. -/
def FlightKey (f : Flight) : String × Date := (f.flight_number, f.date)

theorem flightKey_beq_iff (f : Flight) (fn : String) (d : Date) :
    (f.flight_number == fn && f.date == d) = true ↔ FlightKey f = (fn, d) := by
  simp [FlightKey, Prod.ext_iff]

/-- Well-formedness: distinct stored flight rows carry distinct composite
keys (the table's primary-key constraint). -/
def FlightKeysUnique (db : DB) : Prop :=
  db.flights.Pairwise (fun f g => FlightKey f ≠ FlightKey g)

/-- The invariant of C1: no two committed flight instances with the same
aircraft and the same date have overlapping half-open `[dep, arr)` intervals;
back-to-back (`a2 = b1`) is allowed. -/
def AircraftNoOverlap (db : DB) : Prop :=
  ∀ f ∈ db.flights, ∀ g ∈ db.flights, FlightKey f ≠ FlightKey g →
    f.aircraft_registration = g.aircraft_registration → f.date = g.date →
    ¬(f.scheduled_departure_time < g.scheduled_arrival_time ∧
      g.scheduled_departure_time < f.scheduled_arrival_time)

theorem create_flight_preserves {db db' : DB} {r : FlightCreateRequest}
    {now : Instant} {f : Flight} (h : create_flight db r now = .ok db' f)
    (hK : FlightKeysUnique db) (hI : AircraftNoOverlap db) :
    FlightKeysUnique db' ∧ AircraftNoOverlap db' := by
  obtain ⟨hdup, hv, hdb, -⟩ := create_flight_ok_inv h
  subst hdb
  obtain ⟨-, -, -, hov⟩ := (validate_none_iff db r.date r.route_id
    r.scheduled_departure_time r.scheduled_arrival_time
    r.aircraft_registration none now).mp hv
  have hnk : ∀ x ∈ db.flights, FlightKey x ≠ FlightKey (mkFlight r) := by
    intro x hx heq
    exact findFlight_none hdup x hx
      ⟨congrArg Prod.fst heq, congrArg Prod.snd heq⟩
  constructor
  · show (db.flights ++ [mkFlight r]).Pairwise fun f g => FlightKey f ≠ FlightKey g
    rw [List.pairwise_append]
    refine ⟨hK, List.pairwise_singleton _ _, ?_⟩
    intro x hx y hy
    rw [List.mem_singleton] at hy
    subst hy
    exact hnk x hx
  · intro f1 hf1 g1 hg1 hkey hreg hdate
    simp only [List.mem_append, List.mem_singleton] at hf1 hg1
    rcases hf1 with hf1 | rfl
    · rcases hg1 with hg1 | rfl
      · exact hI f1 hf1 g1 hg1 hkey hreg hdate
      · intro hcon
        exact hov f1 hf1 rfl ⟨hreg, hdate, hcon.1, hcon.2⟩
    · rcases hg1 with hg1 | rfl
      · intro hcon
        exact hov g1 hg1 rfl ⟨hreg.symm, hdate.symm, hcon.2, hcon.1⟩
      · exact absurd rfl hkey

theorem update_flight_preserves {db db' : DB} {fn : String} {d : Date}
    {u : FlightUpdateRequest} {now : Instant} {fres : Flight}
    (h : update_flight db fn d u now = .ok db' fres)
    (hK : FlightKeysUnique db) (hI : AircraftNoOverlap db) :
    FlightKeysUnique db' ∧ AircraftNoOverlap db' := by
  obtain ⟨flight, hfind, hdup, hv, hfres, hdb⟩ := update_flight_ok_inv h
  obtain ⟨hmem, hfn, hd⟩ := findFlight_some hfind
  subst hdb
  obtain ⟨-, -, -, hov⟩ := (validate_none_iff db u.date
    (u.route_id.getD flight.route_id)
    (u.scheduled_departure_time.getD flight.scheduled_departure_time)
    (u.scheduled_arrival_time.getD flight.scheduled_arrival_time)
    (u.aircraft_registration.getD flight.aircraft_registration)
    (some (flight.flight_number, flight.date)) now).mp hv
  have hpkey : FlightKey (patchedFlight flight u) = (fn, u.date) := by
    simp [patchedFlight, FlightKey, hfn]
  have hu : db.flights.Pairwise (fun a b =>
      ¬((fun f => f.flight_number == fn && f.date == d) a = true ∧
        (fun f => f.flight_number == fn && f.date == d) b = true)) := by
    refine hK.imp ?_
    rintro a b hab ⟨ha, hb⟩
    rw [flightKey_beq_iff] at ha hb
    exact hab (ha.trans hb.symm)
  have hkeyg : ∀ x ∈ db.flights, ∀ y ∈ db.flights,
      (fun f => f.flight_number == fn && f.date == d) y = true →
      FlightKey x ≠ FlightKey y →
      FlightKey x ≠ FlightKey (patchedFlight flight u) := by
    intro x hx y hy hpy hxy
    rw [hpkey]
    by_cases hdc : u.date = flight.date
    · rw [flightKey_beq_iff] at hpy
      rw [hdc, hd]
      rw [hpy] at hxy
      exact hxy
    · have hnone := hdup hdc
      rw [hfn] at hnone
      intro heq
      exact findFlight_none hnone x hx
        ⟨congrArg Prod.fst heq, congrArg Prod.snd heq⟩
  have hcase : ∀ z ∈ db.flights,
      (fun f => f.flight_number == fn && f.date == d) z = false →
      z.aircraft_registration = (patchedFlight flight u).aircraft_registration →
      z.date = (patchedFlight flight u).date →
      ¬(z.scheduled_departure_time < (patchedFlight flight u).scheduled_arrival_time ∧
        (patchedFlight flight u).scheduled_departure_time < z.scheduled_arrival_time) := by
    intro z hz hpz hzreg hzdate hcon
    have hig : ignoredByPk (some (flight.flight_number, flight.date)) z = false := by
      simpa [ignoredByPk, hfn, hd] using hpz
    exact hov z hz hig ⟨hzreg, hzdate, hcon.1, hcon.2⟩
  constructor
  · exact pairwise_updateFirst (fun a b hab heq => hab heq.symm) hK hkeyg
  · intro f1 hf1 g1 hg1 hkey hreg hdate
    have hmm1 := mem_updateFirst_of_unique hu hf1
    have hmm2 := mem_updateFirst_of_unique hu hg1
    rcases hmm1 with ⟨hf1m, hpf1⟩ | ⟨y1, hy1, hpy1, hfe⟩
    · rcases hmm2 with ⟨hg1m, hpg1⟩ | ⟨y2, hy2, hpy2, hge⟩
      · exact hI f1 hf1m g1 hg1m hkey hreg hdate
      · rw [hge] at hreg hdate ⊢
        exact hcase f1 hf1m hpf1 hreg hdate
    · rcases hmm2 with ⟨hg1m, hpg1⟩ | ⟨y2, hy2, hpy2, hge⟩
      · rw [hfe] at hreg hdate ⊢
        intro hcon
        exact hcase g1 hg1m hpg1 hreg.symm hdate.symm ⟨hcon.2, hcon.1⟩
      · rw [hfe, hge] at hkey
        exact absurd rfl hkey

theorem delete_flight_preserves {db db' : DB} {fn : String} {d : Date}
    (h : delete_flight db fn d = .ok db' ())
    (hK : FlightKeysUnique db) (hI : AircraftNoOverlap db) :
    FlightKeysUnique db' ∧ AircraftNoOverlap db' := by
  obtain ⟨flight, -, hdb⟩ := delete_flight_ok_inv h
  subst hdb
  have hsub := removeFirst_sublist
    (fun f => f.flight_number == fn && f.date == d) db.flights
  constructor
  · exact List.Pairwise.sublist hsub hK
  · intro f1 hf1 g1 hg1 hkey hreg hdate
    exact hI f1 (hsub.subset hf1) g1 (hsub.subset hg1) hkey hreg hdate

/-- One successful flight-timetable mutation (`createFlight`, `updateFlight`
or `deleteFlight`). -/
inductive FlightOpStep : DB → DB → Prop where
  | create : ∀ (db db' : DB) (r : FlightCreateRequest) (now : Instant) (f : Flight),
      create_flight db r now = .ok db' f → FlightOpStep db db'
  | update : ∀ (db db' : DB) (fn : String) (d : Date) (u : FlightUpdateRequest)
      (now : Instant) (f : Flight),
      update_flight db fn d u now = .ok db' f → FlightOpStep db db'
  | delete : ∀ (db db' : DB) (fn : String) (d : Date),
      delete_flight db fn d = .ok db' () → FlightOpStep db db'

theorem flightOpStep_preserves {db db' : DB} (h : FlightOpStep db db')
    (hK : FlightKeysUnique db) (hI : AircraftNoOverlap db) :
    FlightKeysUnique db' ∧ AircraftNoOverlap db' := by
  cases h with
  | create r now f hc => exact create_flight_preserves hc hK hI
  | update fn d u now f hu => exact update_flight_preserves hu hK hI
  | delete fn d hd => exact delete_flight_preserves hd hK hI

/-- C1: in every state reachable through the flight operations
(`createFlight`, `updateFlight`, `deleteFlight`) from a well-formed state
satisfying the invariant, no two committed flight instances with the same
aircraft and date have overlapping half-open `[dep, arr)` intervals
(back-to-back flights are permitted). -/
theorem aircraft_no_overlap_reachable :
    ∀ db db', FlightKeysUnique db → AircraftNoOverlap db →
      Relation.ReflTransGen FlightOpStep db db' → AircraftNoOverlap db' := by
  intro db db' hK hI hreach
  have hconj : FlightKeysUnique db' ∧ AircraftNoOverlap db' := by
    induction hreach with
    | refl => exact ⟨hK, hI⟩
    | tail _ hbc ih => exact flightOpStep_preserves hbc ih.1 ih.2
  exact hconj.2

/-! ### Concrete fixtures -/

/-- The empty store (fresh schema; autoincrement starts at 1). -/
def emptyDB : DB :=
  { routes := []
    aircraft := []
    flights := []
    crew := []
    crew_schedules := []
    engineers := []
    maintenance_history := []
    engineer_maintenances := []
    aircraft_parts := []
    next_job_id := 1 }

def exRoute : Route :=
  { route_id := 1
    source_airport_code := "AAA"
    destination_airport_code := "BBB"
    approved_capacity := 180 }

def exN100 : Aircraft :=
  { registration_number := "N100"
    aircraft_company := "Acme"
    model := "B737"
    capacity := 150
    status := AircraftStatus.active }

def exN200 : Aircraft :=
  { registration_number := "N200"
    aircraft_company := "Acme"
    model := "A320"
    capacity := 150
    status := AircraftStatus.active }

/-- A fleet with one route and two active aircraft, no flights yet. -/
def fleetDB : DB := { emptyDB with routes := [exRoute], aircraft := [exN100, exN200] }

def reqAA100 : FlightCreateRequest :=
  { flight_number := "AA100"
    route_id := 1
    date := 100
    scheduled_departure_time := 600
    scheduled_arrival_time := 720
    aircraft_registration := "N100" }

def now0 : Instant := ⟨100, 0⟩

/-- Witness for C1: a state reached by one concrete `createFlight` step from a
well-formed fleet satisfies the no-overlap invariant. -/
theorem aircraft_no_overlap_reachable_w :
    AircraftNoOverlap { fleetDB with flights := fleetDB.flights ++ [mkFlight reqAA100] } := by
  have hk : FlightKeysUnique fleetDB := by unfold FlightKeysUnique; decide
  have hi : AircraftNoOverlap fleetDB := by unfold AircraftNoOverlap; decide
  exact aircraft_no_overlap_reachable fleetDB _ hk hi
    (Relation.ReflTransGen.single
      (FlightOpStep.create _ _ reqAA100 now0 (mkFlight reqAA100) (by decide)))

/-- Witness for C3: on a concrete fleet with no rejection cause, the
characterisation yields the successful persistence of the new flight. -/
theorem create_flight_error_iff_w :
    create_flight fleetDB reqAA100 now0 =
      .ok { fleetDB with flights := fleetDB.flights ++ [mkFlight reqAA100] }
        (mkFlight reqAA100) :=
  (create_flight_error_iff fleetDB reqAA100 now0).2 (by
    rintro (h | h | h | ⟨ac, hac, hst⟩ | ⟨rt, ac, hrt, hac, hcap⟩ | h | h | ⟨f, hf, -⟩)
    · exact h rfl
    · exact absurd h (by decide)
    · exact absurd h (by decide)
    · rw [show fleetDB.findAircraft reqAA100.aircraft_registration = some exN100 from
        by decide] at hac
      injection hac with he
      subst he
      exact hst rfl
    · rw [show fleetDB.findRoute reqAA100.route_id = some exRoute from by decide] at hrt
      rw [show fleetDB.findAircraft reqAA100.aircraft_registration = some exN100 from
        by decide] at hac
      injection hrt with he1
      injection hac with he2
      subst he1
      subst he2
      exact absurd hcap (by decide)
    · exact absurd h (by decide)
    · exact absurd h (by decide)
    · exact (List.not_mem_nil f) hf)

/-! ### The crew no-overlap invariant -/

/-- The invariant of C2: no two committed crew assignments of the same crew
member resolve to distinct flight instances on the same date with
overlapping `[dep, arr)` intervals. -/
def CrewNoOverlap (db : DB) : Prop :=
  ∀ s1 ∈ db.crew_schedules, ∀ s2 ∈ db.crew_schedules,
    ∀ f1 ∈ db.flights, ∀ f2 ∈ db.flights,
      s1.email_id = s2.email_id →
      f1.flight_number = s1.flight_number → f1.date = s1.date →
      f2.flight_number = s2.flight_number → f2.date = s2.date →
      FlightKey f1 ≠ FlightKey f2 → f1.date = f2.date →
      ¬(f1.scheduled_departure_time < f2.scheduled_arrival_time ∧
        f2.scheduled_departure_time < f1.scheduled_arrival_time)

theorem eq_of_flightKeysUnique {db : DB} (hK : FlightKeysUnique db) {f g : Flight}
    (hf : f ∈ db.flights) (hg : g ∈ db.flights)
    (hkey : FlightKey f = FlightKey g) : f = g := by
  by_contra hne
  exact List.Pairwise.forall (by intro a b hab heq; exact hab heq.symm) hK hf hg hne hkey

theorem crewOverlapExists_false {db : DB} {flight : Flight} {email : String}
    (h : crewOverlapExists db flight email = false) :
    ∀ s ∈ db.crew_schedules, s.email_id = email →
      ∀ f ∈ db.flights, f.flight_number = s.flight_number → f.date = s.date →
        f.date = flight.date → f.flight_number ≠ flight.flight_number →
        ¬(f.scheduled_departure_time < flight.scheduled_arrival_time ∧
          flight.scheduled_departure_time < f.scheduled_arrival_time) := by
  intro s hs hemail f hf h1 h2 h3 hne hcon
  have hany : ¬ (db.crew_schedules.any (fun s =>
      s.email_id == email &&
      db.flights.any (fun f =>
        s.flight_number == f.flight_number && s.date == f.date &&
        f.date == flight.date &&
        decide (f.scheduled_departure_time < flight.scheduled_arrival_time) &&
        decide (flight.scheduled_departure_time < f.scheduled_arrival_time) &&
        f.flight_number != flight.flight_number)) = true) := by
    rw [show (db.crew_schedules.any (fun s =>
      s.email_id == email &&
      db.flights.any (fun f =>
        s.flight_number == f.flight_number && s.date == f.date &&
        f.date == flight.date &&
        decide (f.scheduled_departure_time < flight.scheduled_arrival_time) &&
        decide (flight.scheduled_departure_time < f.scheduled_arrival_time) &&
        f.flight_number != flight.flight_number))) = crewOverlapExists db flight email
      from rfl, h]
    exact Bool.false_ne_true
  rw [List.any_eq_true] at hany
  apply hany
  refine ⟨s, hs, ?_⟩
  simp only [Bool.and_eq_true, beq_iff_eq, List.any_eq_true, bne_iff_ne,
    decide_eq_true_eq, and_assoc]
  exact ⟨hemail, f, hf, h1.symm, h2.symm, h3, hcon.1, hcon.2, hne⟩

theorem assign_crew_ok_inv {db db' : DB} {fn : String} {d : Date}
    {p : CrewAssignmentRequest} {now : Instant} {cl : List Crew}
    (h : assign_crew_to_flight db fn d p now = .ok db' cl) :
    ∃ flight, db.findFlight fn d = some flight ∧
      cl = db.crew.filter (fun c => p.crew_emails.eraseDups.contains c.email_id) ∧
      (∀ c ∈ cl, crewOverlapExists db flight c.email_id = false) ∧
      db' = { db with
        crew_schedules := clearedRows db.crew_schedules flight ++ assignedRows flight cl } := by
  unfold assign_crew_to_flight at h
  split at h
  · exact OpResult.noConfusion h
  · next flight hfind =>
    split at h
    · exact OpResult.noConfusion h
    · split at h
      · exact OpResult.noConfusion h
      · dsimp only at h
        split at h
        · exact OpResult.noConfusion h
        · split at h
          · exact OpResult.noConfusion h
          · next hovb =>
            split at h
            · exact OpResult.noConfusion h
            · next hov =>
              injection h with h1 h2
              subst h2
              refine ⟨flight, hfind, rfl, ?_, h1.symm⟩
              intro c hc
              rw [List.any_eq_true] at hov
              cases hcoe : crewOverlapExists db flight c.email_id with
              | false => rfl
              | true => exact absurd ⟨c, hc, hcoe⟩ hov

theorem assign_crew_preserves {db db' : DB} {fn : String} {d : Date}
    {p : CrewAssignmentRequest} {now : Instant} {cl : List Crew}
    (h : assign_crew_to_flight db fn d p now = .ok db' cl)
    (hK : FlightKeysUnique db) (hI : CrewNoOverlap db) :
    FlightKeysUnique db' ∧ CrewNoOverlap db' := by
  obtain ⟨flight, hfind, hcl, hovall, hdb⟩ := assign_crew_ok_inv h
  obtain ⟨hmemF, hfn, hd⟩ := findFlight_some hfind
  subst hdb
  refine ⟨hK, ?_⟩
  intro s1 hs1 s2 hs2 f1 hf1 f2 hf2 hemail h1fn h1d h2fn h2d hkey hdateeq
  simp only [List.mem_append] at hs1 hs2
  have hnewfact : ∀ s ∈ assignedRows flight cl, ∃ c ∈ cl,
      s.flight_number = flight.flight_number ∧ s.date = flight.date ∧
      s.email_id = c.email_id := by
    intro s hs
    rw [assignedRows, List.mem_map] at hs
    obtain ⟨c, hc, hrow⟩ := hs
    exact ⟨c, hc, by rw [← hrow], by rw [← hrow], by rw [← hrow]⟩
  have holdmem : ∀ s ∈ clearedRows db.crew_schedules flight, s ∈ db.crew_schedules := by
    intro s hs
    rw [clearedRows] at hs
    exact (List.mem_filter.mp hs).1
  have hmixed : ∀ sA ∈ clearedRows db.crew_schedules flight, ∀ sB ∈ assignedRows flight cl,
      sA.email_id = sB.email_id →
      ∀ fA ∈ db.flights, ∀ fB ∈ db.flights,
        fA.flight_number = sA.flight_number → fA.date = sA.date →
        fB.flight_number = sB.flight_number → fB.date = sB.date →
        FlightKey fA ≠ FlightKey fB → fA.date = fB.date →
        ¬(fA.scheduled_departure_time < fB.scheduled_arrival_time ∧
          fB.scheduled_departure_time < fA.scheduled_arrival_time) := by
    intro sA hsA sB hsB hAB fA hfA fB hfB hAfn hAd hBfn hBd hABkey hABdate
    obtain ⟨c, hc, hBfn', hBd', hBe⟩ := hnewfact sB hsB
    have hfBflight : fB = flight := by
      apply eq_of_flightKeysUnique hK hfB hmemF
      show (fB.flight_number, fB.date) = (flight.flight_number, flight.date)
      rw [hBfn, hBd, hBfn', hBd']
    subst hfBflight
    have hfnne : fA.flight_number ≠ fB.flight_number := by
      intro heq
      apply hABkey
      show (fA.flight_number, fA.date) = (fB.flight_number, fB.date)
      rw [heq, hABdate]
    have hov := crewOverlapExists_false (hovall c hc) sA (holdmem sA hsA)
      (by rw [hAB, hBe]) fA hfA hAfn hAd hABdate hfnne
    exact hov
  rcases hs1 with hs1 | hs1
  · rcases hs2 with hs2 | hs2
    · exact hI s1 (holdmem s1 hs1) s2 (holdmem s2 hs2) f1 hf1 f2 hf2 hemail
        h1fn h1d h2fn h2d hkey hdateeq
    · exact hmixed s1 hs1 s2 hs2 hemail f1 hf1 f2 hf2 h1fn h1d h2fn h2d hkey hdateeq
  · rcases hs2 with hs2 | hs2
    · intro hcon
      exact hmixed s2 hs2 s1 hs1 hemail.symm f2 hf2 f1 hf1 h2fn h2d h1fn h1d
        (fun heq => hkey heq.symm) hdateeq.symm ⟨hcon.2, hcon.1⟩
    · obtain ⟨c1, -, h1fn', h1d', -⟩ := hnewfact s1 hs1
      obtain ⟨c2, -, h2fn', h2d', -⟩ := hnewfact s2 hs2
      exfalso
      apply hkey
      show (f1.flight_number, f1.date) = (f2.flight_number, f2.date)
      rw [h1fn, h1d, h2fn, h2d, h1fn', h1d', h2fn', h2d']

theorem delete_flight_preserves_crew {db db' : DB} {fn : String} {d : Date}
    (h : delete_flight db fn d = .ok db' ())
    (hK : FlightKeysUnique db) (hI : CrewNoOverlap db) :
    FlightKeysUnique db' ∧ CrewNoOverlap db' := by
  obtain ⟨flight, -, hdb⟩ := delete_flight_ok_inv h
  subst hdb
  have hsub := removeFirst_sublist
    (fun f => f.flight_number == fn && f.date == d) db.flights
  refine ⟨List.Pairwise.sublist hsub hK, ?_⟩
  intro s1 hs1 s2 hs2 f1 hf1 f2 hf2 hemail h1fn h1d h2fn h2d hkey hdateeq
  exact hI s1 hs1 s2 hs2 f1 (hsub.subset hf1) f2 (hsub.subset hf2) hemail
    h1fn h1d h2fn h2d hkey hdateeq

/-- One successful crew-roster mutation among `assignCrew` and
`deleteFlight`. -/
inductive CrewSafeStep : DB → DB → Prop where
  | assign : ∀ (db db' : DB) (fn : String) (d : Date) (p : CrewAssignmentRequest)
      (now : Instant) (cl : List Crew),
      assign_crew_to_flight db fn d p now = .ok db' cl → CrewSafeStep db db'
  | delete : ∀ (db db' : DB) (fn : String) (d : Date),
      delete_flight db fn d = .ok db' () → CrewSafeStep db db'

/-- C2 (amended): the per-crew-member no-overlap invariant is preserved in
every state reachable through `assignCrew` and `deleteFlight`; `updateFlight`
does not re-validate crew conflicts and is excluded (see the
counterexample). -/
theorem crew_no_overlap_safe_reachable :
    ∀ db db', FlightKeysUnique db → CrewNoOverlap db →
      Relation.ReflTransGen CrewSafeStep db db' → CrewNoOverlap db' := by
  intro db db' hK hI hreach
  have hconj : FlightKeysUnique db' ∧ CrewNoOverlap db' := by
    induction hreach with
    | refl => exact ⟨hK, hI⟩
    | tail _ hbc ih =>
      cases hbc with
      | assign fn d p now cl ha => exact assign_crew_preserves ha ih.1 ih.2
      | delete fn d hd => exact delete_flight_preserves_crew hd ih.1 ih.2
  exact hconj.2

def crewPat : Crew :=
  { email_id := "p@x.com", name := "Pat", phone := none, is_pilot := true }

def exF1 : Flight :=
  { flight_number := "F1"
    date := 100
    route_id := 1
    scheduled_departure_time := 600
    scheduled_arrival_time := 720
    aircraft_registration := "N100" }

def exF2 : Flight :=
  { flight_number := "F2"
    date := 100
    route_id := 1
    scheduled_departure_time := 780
    scheduled_arrival_time := 840
    aircraft_registration := "N200" }

def sched1 : CrewSchedule :=
  { flight_number := "F1", date := 100, scheduled_departure_time := 600
    email_id := "p@x.com" }

def sched2 : CrewSchedule :=
  { flight_number := "F2", date := 100, scheduled_departure_time := 780
    email_id := "p@x.com" }

/-- A committed state: Pat is assigned to the back-to-back-disjoint flights
`F1` (10:00–12:00, N100) and `F2` (13:00–14:00, N200) of the same day. -/
def crewDB : DB :=
  { fleetDB with
    flights := [exF1, exF2]
    crew := [crewPat]
    crew_schedules := [sched1, sched2] }

/-- The patch moving `F2` to 11:00–13:00 (same date, same aircraft). -/
def patchF2 : FlightUpdateRequest :=
  { route_id := none
    date := 100
    scheduled_departure_time := some 660
    scheduled_arrival_time := some 780
    aircraft_registration := none }

/-- The state committed by `updateFlight(F2, patchF2)`. -/
def crewDBafter : DB :=
  { crewDB with
    flights := [exF1,
      { exF2 with scheduled_departure_time := 660, scheduled_arrival_time := 780 }]
    crew_schedules := [sched1, { sched2 with scheduled_departure_time := 660 }] }

/-- C2 counterexample: from a well-formed state satisfying the crew
no-overlap invariant, one successful `updateFlight` — which re-runs only the
flight-level checks and never the crew-conflict check — commits a state in
which Pat holds two overlapping assignments (`F1` 10:00–12:00 and `F2`
11:00–13:00 on the same date). -/
theorem crew_no_overlap_counterexample :
    FlightKeysUnique crewDB ∧ CrewNoOverlap crewDB ∧
    update_flight crewDB "F2" 100 patchF2 now0 =
      .ok crewDBafter (patchedFlight exF2 patchF2) ∧
    ¬ CrewNoOverlap crewDBafter := by
  refine ⟨by unfold FlightKeysUnique; decide, by unfold CrewNoOverlap; decide,
    by decide, by unfold CrewNoOverlap; decide⟩

/-- A committed state with flight `F1` and crew member Pat, no assignments. -/
def crewDB0 : DB := { fleetDB with flights := [exF1], crew := [crewPat] }

/-- Witness for the amended C2: a state reached by one concrete `assignCrew`
step satisfies the crew no-overlap invariant. -/
theorem crew_no_overlap_safe_reachable_w :
    CrewNoOverlap { crewDB0 with
      crew_schedules := clearedRows crewDB0.crew_schedules exF1 ++
        assignedRows exF1 [crewPat] } := by
  have hk : FlightKeysUnique crewDB0 := by unfold FlightKeysUnique; decide
  have hi : CrewNoOverlap crewDB0 := by unfold CrewNoOverlap; decide
  exact crew_no_overlap_safe_reachable crewDB0 _ hk hi
    (Relation.ReflTransGen.single
      (CrewSafeStep.assign _ _ "F1" 100 ⟨["p@x.com"]⟩ now0 [crewPat] (by decide)))

/-! ### The round trip `createFlight` then trivial `updateFlight` -/

theorem update_flight_ok_intro {db : DB} {fn : String} {d : Date}
    {u : FlightUpdateRequest} {now : Instant} {flight : Flight}
    (hfind : db.findFlight fn d = some flight)
    (hdup : u.date = flight.date ∨ db.findFlight flight.flight_number u.date = none)
    (hv : validate_flight_business_rules db u.date (u.route_id.getD flight.route_id)
      (u.scheduled_departure_time.getD flight.scheduled_departure_time)
      (u.scheduled_arrival_time.getD flight.scheduled_arrival_time)
      (u.aircraft_registration.getD flight.aircraft_registration)
      (some (flight.flight_number, flight.date)) now = none) :
    update_flight db fn d u now =
      .ok { db with
        flights := updateFirst (fun f => f.flight_number == fn && f.date == d)
          (fun _ => patchedFlight flight u) db.flights
        crew_schedules :=
          (let cs1 := match u.scheduled_departure_time with
            | none => db.crew_schedules
            | some nd => syncCrewDepTime db.crew_schedules flight.flight_number
                u.date flight.scheduled_departure_time nd
          if u.date != flight.date then
            cascadeDateChange cs1 flight.flight_number flight.date u.date
          else cs1) }
        (patchedFlight flight u) := by
  unfold update_flight
  rw [hfind]
  dsimp only
  have hcond : ¬((u.date != flight.date &&
      (db.findFlight flight.flight_number u.date).isSome) = true) := by
    rcases hdup with hdup | hdup
    · simp [hdup]
    · simp [hdup]
  rw [if_neg hcond, hv]
  rfl

/-- The patch carrying only its mandatory `date` field, set to `d`. -/
def trivialPatch (d : Date) : FlightUpdateRequest :=
  { route_id := none
    date := d
    scheduled_departure_time := none
    scheduled_arrival_time := none
    aircraft_registration := none }

/-- C4 (amended): after a successful `createFlight`, an `updateFlight` whose
patch sets no field beyond the schema-mandatory `date` — set to the flight's
own date — at the same instant succeeds and returns the flight with all its
original values, leaving the state unchanged. -/
theorem create_then_trivial_update_identity :
    ∀ (db : DB) (r : FlightCreateRequest) (now : Instant) (db' : DB) (f : Flight),
      create_flight db r now = .ok db' f →
      update_flight db' r.flight_number r.date (trivialPatch r.date) now =
        .ok db' f := by
  intro db r now db' f h
  obtain ⟨hdup, hv0, hdb, hf⟩ := create_flight_ok_inv h
  subst hdb
  subst hf
  have hfind' : DB.findFlight { db with flights := db.flights ++ [mkFlight r] }
      r.flight_number r.date = some (mkFlight r) := by
    show (db.flights ++ [mkFlight r]).find? _ = _
    rw [find?_append_of_none hdup]
    simp [mkFlight]
  obtain ⟨⟨rt, ac, hrt, hac, hst, hcap⟩, hpast, htw, hov⟩ :=
    (validate_none_iff db r.date r.route_id r.scheduled_departure_time
      r.scheduled_arrival_time r.aircraft_registration none now).mp hv0
  have hv' : validate_flight_business_rules
      { db with flights := db.flights ++ [mkFlight r] } r.date
      ((trivialPatch r.date).route_id.getD (mkFlight r).route_id)
      ((trivialPatch r.date).scheduled_departure_time.getD
        (mkFlight r).scheduled_departure_time)
      ((trivialPatch r.date).scheduled_arrival_time.getD
        (mkFlight r).scheduled_arrival_time)
      ((trivialPatch r.date).aircraft_registration.getD
        (mkFlight r).aircraft_registration)
      (some ((mkFlight r).flight_number, (mkFlight r).date)) now = none := by
    show validate_flight_business_rules
      { db with flights := db.flights ++ [mkFlight r] } r.date r.route_id
      r.scheduled_departure_time r.scheduled_arrival_time
      r.aircraft_registration (some (r.flight_number, r.date)) now = none
    refine (validate_none_iff _ _ _ _ _ _ _ _).mpr ⟨⟨rt, ac, hrt, hac, hst, hcap⟩,
      hpast, htw, ?_⟩
    intro g hg hig hconj
    rcases List.mem_append.mp hg with hg | hg
    · exact hov g hg rfl hconj
    · rw [List.mem_singleton] at hg
      subst hg
      simp [ignoredByPk, mkFlight] at hig
  rw [update_flight_ok_intro hfind' (Or.inl rfl) hv']
  have hupd : updateFirst
      (fun g => g.flight_number == r.flight_number && g.date == r.date)
      (fun _ => patchedFlight (mkFlight r) (trivialPatch r.date))
      (db.flights ++ [mkFlight r]) = db.flights ++ [mkFlight r] := by
    apply updateFirst_eq_self
    intro y hy hpy
    rcases List.mem_append.mp hy with hy | hy
    · exact absurd (by simpa using hpy) (findFlight_none hdup y hy)
    · rw [List.mem_singleton] at hy
      subst hy
      rfl
  rw [hupd]
  have hbne : ((trivialPatch r.date).date != (mkFlight r).date) = false := by
    simp [trivialPatch, mkFlight]
  rw [hbne]
  rfl

/-- The `PUT` body with no field present. -/
def rawEmpty : RawFlightUpdate :=
  { route_id := none
    date := none
    scheduled_departure_time := none
    scheduled_arrival_time := none
    aircraft_registration := none }

/-- The state after creating `AA100` in the fleet. -/
def fleetWithAA100 : DB := { fleetDB with flights := fleetDB.flights ++ [mkFlight reqAA100] }

/-- C4 counterexample: immediately after a successful `createFlight`, the
update endpoint rejects a patch in which no field is set — the
`FlightUpdateRequest` schema declares `date` as required, so the empty body
fails validation (422) instead of succeeding with the original values. -/
theorem empty_patch_update_counterexample :
    create_flight fleetDB reqAA100 now0 = .ok fleetWithAA100 (mkFlight reqAA100) ∧
    update_flight_endpoint fleetWithAA100 "AA100" 100 rawEmpty now0 =
      .fail fleetWithAA100 Err.unprocessableEntity :=
  ⟨by decide, by decide⟩

/-- Witness for C4 (amended): the concrete round trip on `AA100`. -/
theorem create_then_trivial_update_identity_w :
    update_flight fleetWithAA100 "AA100" 100 (trivialPatch 100) now0 =
      .ok fleetWithAA100 (mkFlight reqAA100) :=
  create_then_trivial_update_identity fleetDB reqAA100 now0 fleetWithAA100
    (mkFlight reqAA100) (by decide)

/-! ### All-or-nothing leader re-validation of `addEngineers` -/

/-- C5: `addEngineers` applies its upserts as an all-or-nothing batch.  A
successful call commits exactly the batch result and leaves the job with
exactly one leader-role assignment; whenever the applied batch would leave
zero or more than one leader, the whole call fails and the committed state
is the unchanged pre-call state (so the job's leader set is exactly as
before). -/
theorem add_engineers_all_or_nothing :
    ∀ (db : DB) (job_id : Nat) (p : AddEngineersToJobRequest) (user : String)
      (now : Instant),
      (∀ db' u, add_engineers_to_job db job_id p user now = .ok db' u →
        ∃ links', upsertEngineerItems db.engineers job_id now
            db.engineer_maintenances p.engineers = some links' ∧
          db' = { db with engineer_maintenances := links' } ∧
          leaderCount db'.engineer_maintenances job_id = 1) ∧
      (∀ links', upsertEngineerItems db.engineers job_id now
          db.engineer_maintenances p.engineers = some links' →
        leaderCount links' job_id ≠ 1 →
        ∃ e, add_engineers_to_job db job_id p user now = .fail db e) := by
  intro db job_id p user now
  constructor
  · intro db' u h
    unfold add_engineers_to_job at h
    split at h
    · exact OpResult.noConfusion h
    · split at h
      · exact OpResult.noConfusion h
      · split at h
        · exact OpResult.noConfusion h
        · split at h
          · exact OpResult.noConfusion h
          · split at h
            · exact OpResult.noConfusion h
            · next links' hup =>
              split at h
              · exact OpResult.noConfusion h
              · next hc0 =>
                split at h
                · exact OpResult.noConfusion h
                · next hc1 =>
                  injection h with h1 h2
                  refine ⟨links', hup, h1.symm, ?_⟩
                  rw [← h1]
                  show leaderCount links' job_id = 1
                  simp only [beq_iff_eq] at hc0
                  omega
  · intro links' hup hne
    unfold add_engineers_to_job
    cases hmh : db.maintenance_history.find? (fun m => m.job_id == job_id) with
    | none => exact ⟨Err.jobNotFound, rfl⟩
    | some mh =>
      dsimp only
      by_cases hcl : (mh.status == MaintenanceStatus.completed ||
          mh.status == MaintenanceStatus.cancelled) = true
      · rw [if_pos hcl]; exact ⟨Err.jobClosed, rfl⟩
      · rw [if_neg hcl]
        by_cases hld : (!(isJobLeader db job_id user)) = true
        · rw [if_pos hld]; exact ⟨Err.notLeader, rfl⟩
        · rw [if_neg hld]
          by_cases hpe : p.engineers.isEmpty = true
          · rw [if_pos hpe]; exact ⟨Err.noEngineersProvided, rfl⟩
          · rw [if_neg hpe]
            rw [hup]
            dsimp only
            by_cases hc0 : (leaderCount links' job_id == 0) = true
            · rw [if_pos hc0]; exact ⟨Err.noLeaderAfterBatch, rfl⟩
            · rw [if_neg hc0]
              have hgt : leaderCount links' job_id > 1 := by
                simp only [beq_iff_eq] at hc0
                omega
              rw [if_pos hgt]
              exact ⟨Err.multipleLeaders, rfl⟩

def engLead : Engineer := { email_id := "lead@x.com", name := "Lee" }

def engE1 : Engineer := { email_id := "e1@x.com", name := "E One" }

def engE2 : Engineer := { email_id := "e2@x.com", name := "E Two" }

def jobMH : MaintenanceHistory :=
  { job_id := 1
    checkin_date := ⟨90, 0⟩
    checkout_date := none
    status := MaintenanceStatus.pending
    remarks := none
    registration_number := "N100"
    type := MaintenanceType.routine }

def leadLink : EngineerMaintenance :=
  { job_id := 1, engineer_email_id := "lead@x.com", assigned_date := ⟨90, 0⟩
    role := "Leader" }

/-- A pending single-leader maintenance job on `N100`, led by Lee. -/
def jobDB : DB :=
  { fleetDB with
    engineers := [engLead, engE1, engE2]
    maintenance_history := [jobMH]
    engineer_maintenances := [leadLink]
    next_job_id := 2 }

def twoLeadersReq : AddEngineersToJobRequest :=
  { engineers := [⟨"e1@x.com", "Leader"⟩, ⟨"e2@x.com", "Leader"⟩] }

/-- The batch result of upserting two extra leaders into the job. -/
def linksAfterBatch : List EngineerMaintenance :=
  [leadLink,
   { job_id := 1, engineer_email_id := "e1@x.com", assigned_date := now0
     role := "Leader" },
   { job_id := 1, engineer_email_id := "e2@x.com", assigned_date := now0
     role := "Leader" }]

/-- Witness for C5: supplying two engineers both with the leader role for a
single-leader job rejects the whole batch, the state staying as before. -/
theorem add_engineers_all_or_nothing_w :
    ∃ e, add_engineers_to_job jobDB 1 twoLeadersReq "lead@x.com" now0 =
      .fail jobDB e :=
  (add_engineers_all_or_nothing jobDB 1 twoLeadersReq "lead@x.com" now0).2
    linksAfterBatch (by decide) (by decide)

/-! ### Characterisation of `closeJob` -/

/-- C6: `closeJob` fails exactly when the job is absent, already completed,
already cancelled, or the caller is not the job's leader — in particular an
already-completed job is always rejected, never silently closed twice.  On
success the job's status becomes `completed`, its checkout timestamp is set
to now (remarks replaced when supplied), and the aircraft status reverts to
`active` if and only if it currently is `maintenance` (no-op otherwise). -/
theorem close_job_characterisation :
    ∀ (db : DB) (job_id : Nat) (remarks : Option String) (user : String)
      (now : Instant),
      ((∃ db₂ e, close_maintenance_job db job_id remarks user now = .fail db₂ e) ↔
        (db.maintenance_history.find? (fun m => m.job_id == job_id) = none ∨
         (∃ j, db.maintenance_history.find? (fun m => m.job_id == job_id) = some j ∧
           (j.status = MaintenanceStatus.completed ∨
            j.status = MaintenanceStatus.cancelled)) ∨
         (∃ j, db.maintenance_history.find? (fun m => m.job_id == job_id) = some j ∧
           isJobLeader db job_id user = false))) ∧
      (∀ db', close_maintenance_job db job_id remarks user now = .ok db' () →
        ∃ j, db.maintenance_history.find? (fun m => m.job_id == job_id) = some j ∧
          j.status ≠ MaintenanceStatus.completed ∧
          j.status ≠ MaintenanceStatus.cancelled ∧
          db'.maintenance_history.find? (fun m => m.job_id == job_id) =
            some (closedJob j remarks now) ∧
          (∀ a, db.findAircraft j.registration_number = some a →
            db'.findAircraft j.registration_number =
              some { a with status :=
                if a.status = AircraftStatus.maintenance then AircraftStatus.active
                else a.status })) := by
  intro db job_id remarks user now
  cases hmh : db.maintenance_history.find? (fun m => m.job_id == job_id) with
  | none =>
    refine ⟨⟨fun _ => Or.inl rfl, fun _ => ⟨db, Err.jobNotFound, ?_⟩⟩, ?_⟩
    · unfold close_maintenance_job
      rw [hmh]
    · intro db' h
      unfold close_maintenance_job at h
      rw [hmh] at h
      exact OpResult.noConfusion h
  | some mh =>
    by_cases hcomp : mh.status = MaintenanceStatus.completed
    · refine ⟨⟨fun _ => Or.inr (Or.inl ⟨mh, rfl, Or.inl hcomp⟩),
        fun _ => ⟨db, Err.alreadyCompleted, ?_⟩⟩, ?_⟩
      · unfold close_maintenance_job
        rw [hmh]
        dsimp only
        rw [if_pos (by simp [hcomp])]
      · intro db' h
        unfold close_maintenance_job at h
        rw [hmh] at h
        dsimp only at h
        rw [if_pos (by simp [hcomp])] at h
        exact OpResult.noConfusion h
    · by_cases hcanc : mh.status = MaintenanceStatus.cancelled
      · refine ⟨⟨fun _ => Or.inr (Or.inl ⟨mh, rfl, Or.inr hcanc⟩),
          fun _ => ⟨db, Err.alreadyCancelled, ?_⟩⟩, ?_⟩
        · unfold close_maintenance_job
          rw [hmh]
          dsimp only
          rw [if_neg (by simp [hcomp]), if_pos (by simp [hcanc])]
        · intro db' h
          unfold close_maintenance_job at h
          rw [hmh] at h
          dsimp only at h
          rw [if_neg (by simp [hcomp]), if_pos (by simp [hcanc])] at h
          exact OpResult.noConfusion h
      · by_cases hlead : isJobLeader db job_id user = true
        · refine ⟨⟨?_, ?_⟩, ?_⟩
          · rintro ⟨db₂, e, hfail⟩
            unfold close_maintenance_job at hfail
            rw [hmh] at hfail
            dsimp only at hfail
            rw [if_neg (by simp [hcomp]), if_neg (by simp [hcanc]),
              if_neg (by simp [hlead])] at hfail
            exact OpResult.noConfusion hfail
          · rintro (h | ⟨j, hj, hst⟩ | ⟨j, hj, hl⟩)
            · exact Option.noConfusion h
            · injection hj with he
              subst he
              rcases hst with hst | hst
              · exact (hcomp hst).elim
              · exact (hcanc hst).elim
            · injection hj with he
              subst he
              rw [hlead] at hl
              exact Bool.noConfusion hl
          · intro db' h
            unfold close_maintenance_job at h
            rw [hmh] at h
            dsimp only at h
            rw [if_neg (by simp [hcomp]), if_neg (by simp [hcanc]),
              if_neg (by simp [hlead])] at h
            injection h with h1 h2
            subst h1
            refine ⟨mh, rfl, hcomp, hcanc, ?_, ?_⟩
            · show (updateFirst (fun m => m.job_id == job_id)
                (fun _ => closedJob mh remarks now)
                db.maintenance_history).find? (fun m => m.job_id == job_id) = _
              have hjob : ((fun m => m.job_id == job_id)
                  (closedJob mh remarks now)) = true := by
                have := List.find?_some hmh
                simpa [closedJob] using this
              have hfj := find?_updateFirst (l := db.maintenance_history)
                (p := fun m => m.job_id == job_id)
                (g := fun _ => closedJob mh remarks now)
                (fun _ _ => hjob)
              rw [hfj, hmh]
              rfl
            · intro a ha
              have ha' : List.find?
                  (fun x => x.registration_number == mh.registration_number)
                  db.aircraft = some a := ha
              unfold DB.findAircraft
              dsimp only
              rw [ha']
              dsimp only
              by_cases hstm : a.status = AircraftStatus.maintenance
              · rw [if_pos (by simp [hstm])]
                have hfu := find?_updateFirst (l := db.aircraft)
                  (p := fun x => x.registration_number == mh.registration_number)
                  (g := fun x => { x with status := AircraftStatus.active })
                  (fun y hy => hy)
                rw [hfu, ha', if_pos hstm]
                rfl
              · rw [if_neg (by simp [hstm]), if_neg hstm]
                exact ha'
        · have hleadf : isJobLeader db job_id user = false := by
            cases hbl : isJobLeader db job_id user
            · rfl
            · exact absurd hbl hlead
          refine ⟨⟨fun _ => Or.inr (Or.inr ⟨mh, rfl, hleadf⟩),
            fun _ => ⟨db, Err.notLeader, ?_⟩⟩, ?_⟩
          · unfold close_maintenance_job
            rw [hmh]
            dsimp only
            rw [if_neg (by simp [hcomp]), if_neg (by simp [hcanc]),
              if_pos (by simp [hleadf])]
          · intro db' h
            unfold close_maintenance_job at h
            rw [hmh] at h
            dsimp only at h
            rw [if_neg (by simp [hcomp]), if_neg (by simp [hcanc]),
              if_pos (by simp [hleadf])] at h
            exact OpResult.noConfusion h

/-- The single-leader job store with `N100` parked in maintenance. -/
def jobDBm : DB :=
  { jobDB with
    aircraft := [{ exN100 with status := AircraftStatus.maintenance }, exN200] }

/-- The state committed by closing job 1 of `jobDBm`. -/
def jobDBmAfter : DB :=
  { jobDBm with
    maintenance_history := [closedJob jobMH none now0]
    aircraft := [{ exN100 with status := AircraftStatus.active }, exN200] }

/-- Witness for C6: the leader closes the pending job; the job completes
with checkout now and `N100` reverts from `maintenance` to `active`. -/
theorem close_job_characterisation_w :
    ∃ j, jobDBm.maintenance_history.find? (fun m => m.job_id == 1) = some j ∧
      j.status ≠ MaintenanceStatus.completed ∧
      j.status ≠ MaintenanceStatus.cancelled ∧
      jobDBmAfter.maintenance_history.find? (fun m => m.job_id == 1) =
        some (closedJob j none now0) ∧
      (∀ a, jobDBm.findAircraft j.registration_number = some a →
        jobDBmAfter.findAircraft j.registration_number =
          some { a with status :=
            if a.status = AircraftStatus.maintenance then AircraftStatus.active
            else a.status }) :=
  (close_job_characterisation jobDBm 1 none "lead@x.com" now0).2 jobDBmAfter
    (by decide)

/-! ### Failed operations commit nothing -/

/-- One call to a core mutation, with its arguments. -/
inductive OpCall where
  | createFlightC (r : FlightCreateRequest) (now : Instant)
  | updateFlightC (fn : String) (d : Date) (u : FlightUpdateRequest) (now : Instant)
  | deleteFlightC (fn : String) (d : Date)
  | assignCrewC (fn : String) (d : Date) (p : CrewAssignmentRequest) (now : Instant)
  | openJobC (p : MaintenanceJobCreateRequest) (user : String) (now : Instant)
  | addEngineersC (job_id : Nat) (p : AddEngineersToJobRequest) (user : String)
      (now : Instant)
  | closeJobC (job_id : Nat) (remarks : Option String) (user : String) (now : Instant)
  | addPartC (reg : String) (p : AircraftPartCreateRequest) (today : Date)

/-- Discard the response value, keeping the committed state and outcome. -/
def OpResult.toUnit {α : Type} : OpResult α → OpResult Unit
  | .ok db _ => .ok db ()
  | .fail db e => .fail db e

/-- Dispatch one call against the store. -/
def applyOp (db : DB) : OpCall → OpResult Unit
  | .createFlightC r now => (create_flight db r now).toUnit
  | .updateFlightC fn d u now => (update_flight db fn d u now).toUnit
  | .deleteFlightC fn d => delete_flight db fn d
  | .assignCrewC fn d p now => (assign_crew_to_flight db fn d p now).toUnit
  | .openJobC p user now => create_job db p user now
  | .addEngineersC job_id p user now => add_engineers_to_job db job_id p user now
  | .closeJobC job_id remarks user now => close_maintenance_job db job_id remarks user now
  | .addPartC reg p today => add_part_to_aircraft db reg p today

theorem toUnit_fail_iff {α : Type} {x : OpResult α} {db₂ : DB} {e : Err} :
    x.toUnit = .fail db₂ e ↔ x = .fail db₂ e := by
  cases x <;> simp [OpResult.toUnit]

theorem create_flight_fail_eq {db db₂ : DB} {r : FlightCreateRequest}
    {now : Instant} {e : Err} (h : create_flight db r now = .fail db₂ e) :
    db₂ = db := by
  unfold create_flight at h
  repeat' split at h
  all_goals first
    | (injection h with h1 h2; exact h1.symm)
    | exact OpResult.noConfusion h

theorem update_flight_fail_eq {db db₂ : DB} {fn : String} {d : Date}
    {u : FlightUpdateRequest} {now : Instant} {e : Err}
    (h : update_flight db fn d u now = .fail db₂ e) : db₂ = db := by
  unfold update_flight at h
  try dsimp only at h
  repeat' split at h
  all_goals first
    | (injection h with h1 h2; exact h1.symm)
    | exact OpResult.noConfusion h

theorem delete_flight_fail_eq {db db₂ : DB} {fn : String} {d : Date} {e : Err}
    (h : delete_flight db fn d = .fail db₂ e) : db₂ = db := by
  unfold delete_flight at h
  try dsimp only at h
  repeat' split at h
  all_goals first
    | (injection h with h1 h2; exact h1.symm)
    | exact OpResult.noConfusion h

theorem assign_crew_fail_eq {db db₂ : DB} {fn : String} {d : Date}
    {p : CrewAssignmentRequest} {now : Instant} {e : Err}
    (h : assign_crew_to_flight db fn d p now = .fail db₂ e) : db₂ = db := by
  unfold assign_crew_to_flight at h
  try dsimp only at h
  repeat' split at h
  all_goals first
    | (injection h with h1 h2; exact h1.symm)
    | exact OpResult.noConfusion h

theorem create_job_fail_eq {db db₂ : DB} {p : MaintenanceJobCreateRequest}
    {user : String} {now : Instant} {e : Err}
    (h : create_job db p user now = .fail db₂ e) : db₂ = db := by
  unfold create_job at h
  try dsimp only at h
  repeat' split at h
  all_goals first
    | (injection h with h1 h2; exact h1.symm)
    | exact OpResult.noConfusion h

theorem add_engineers_fail_eq {db db₂ : DB} {job_id : Nat}
    {p : AddEngineersToJobRequest} {user : String} {now : Instant} {e : Err}
    (h : add_engineers_to_job db job_id p user now = .fail db₂ e) : db₂ = db := by
  unfold add_engineers_to_job at h
  try dsimp only at h
  repeat' split at h
  all_goals first
    | (injection h with h1 h2; exact h1.symm)
    | exact OpResult.noConfusion h

theorem close_job_fail_eq {db db₂ : DB} {job_id : Nat} {remarks : Option String}
    {user : String} {now : Instant} {e : Err}
    (h : close_maintenance_job db job_id remarks user now = .fail db₂ e) :
    db₂ = db := by
  unfold close_maintenance_job at h
  try dsimp only at h
  repeat' split at h
  all_goals first
    | (injection h with h1 h2; exact h1.symm)
    | exact OpResult.noConfusion h

theorem add_part_fail_eq {db db₂ : DB} {reg : String}
    {p : AircraftPartCreateRequest} {today : Date} {e : Err}
    (h : add_part_to_aircraft db reg p today = .fail db₂ e) : db₂ = db := by
  unfold add_part_to_aircraft at h
  try dsimp only at h
  repeat' split at h
  all_goals first
    | (injection h with h1 h2; exact h1.symm)
    | exact OpResult.noConfusion h

/-- C7: when any core mutation (`createFlight`, `updateFlight`,
`deleteFlight`, `assignCrew`, `openJob`, `addEngineers`, `closeJob`,
`addPart`) fails, the committed state after the call is exactly the state
before it: every raise happens before any commit, so no partial write is
ever visible. -/
theorem failed_op_state_unchanged :
    ∀ (db : DB) (c : OpCall) (db₂ : DB) (e : Err),
      applyOp db c = .fail db₂ e → db₂ = db := by
  intro db c db₂ e h
  cases c with
  | createFlightC r now => exact create_flight_fail_eq (toUnit_fail_iff.mp h)
  | updateFlightC fn d u now => exact update_flight_fail_eq (toUnit_fail_iff.mp h)
  | deleteFlightC fn d => exact delete_flight_fail_eq h
  | assignCrewC fn d p now => exact assign_crew_fail_eq (toUnit_fail_iff.mp h)
  | openJobC p user now => exact create_job_fail_eq h
  | addEngineersC job_id p user now => exact add_engineers_fail_eq h
  | closeJobC job_id remarks user now => exact close_job_fail_eq h
  | addPartC reg p today => exact add_part_fail_eq h

/-- Witness for C7: a duplicate-key `createFlight` fails and the committed
state equals the pre-call state. -/
theorem failed_op_state_unchanged_w :
    applyOp fleetWithAA100 (OpCall.createFlightC reqAA100 now0) =
      .fail fleetWithAA100 Err.duplicateKey ∧
    fleetWithAA100 = fleetWithAA100 :=
  ⟨by decide, failed_op_state_unchanged fleetWithAA100
    (OpCall.createFlightC reqAA100 now0) fleetWithAA100 Err.duplicateKey (by decide)⟩

/-! ### The crew-hours dashboard aggregate -/

def flightAA100d100 : Flight :=
  { flight_number := "AA100"
    date := 100
    route_id := 1
    scheduled_departure_time := 600
    scheduled_arrival_time := 720
    aircraft_registration := "N100" }

def flightAA100d101 : Flight :=
  { flight_number := "AA100"
    date := 101
    route_id := 1
    scheduled_departure_time := 600
    scheduled_arrival_time := 720
    aircraft_registration := "N100" }

/-- Pat is assigned only to the `(AA100, day 100)` instance, but flight
number `AA100` also flies on day 101. -/
def db8 : DB :=
  { fleetDB with
    flights := [flightAA100d100, flightAA100d101]
    crew := [crewPat]
    crew_schedules := [{ flight_number := "AA100", date := 100
                         scheduled_departure_time := 600, email_id := "p@x.com" }] }

def now8 : Instant := ⟨102, 0⟩

/-- C8: the duration rule matches the spec (elapsed minutes, adding 24h when
arrival ≤ departure), but `totalHoursCompleted` does not sum over exactly
the crew member's past flights: the dashboard base query joins
`CrewSchedule` to `Flight` on `flight_number` alone, so Pat's single
two-hour assignment is counted once per same-numbered flight instance
(240 minutes instead of the 120 of §4.4's per-assignment rule). -/
theorem crew_hours_join_bug_eval :
    compute_duration_minutes 100 600 720 = 120 ∧
    compute_duration_minutes 100 720 600 = 1320 ∧
    crewUpcomingRows db8 "p@x.com" now8 = [] ∧
    total_minutes_completed db8 "p@x.com" now8 = 240 ∧
    specTotalMinutesCompleted db8 "p@x.com" now8 = 120 :=
  ⟨rfl, rfl, by decide, by decide, by decide⟩

/-! ### The crew list of a flight -/

/-- The returned list is ordered by crew member name (lexicographically). -/
def sortedByName (l : List Crew) : Prop :=
  l.Pairwise (fun c1 c2 => (compare c1.name c2.name).isLE = true)

def crewZed : Crew :=
  { email_id := "a@x.com", name := "Zed", phone := none, is_pilot := true }

def crewAnn : Crew :=
  { email_id := "b@x.com", name := "Ann", phone := none, is_pilot := false }

/-- Flight `F1` with Zed and Ann assigned; the `crew` table stores Zed
before Ann. -/
def db9 : DB :=
  { fleetDB with
    flights := [exF1]
    crew := [crewZed, crewAnn]
    crew_schedules := [{ flight_number := "F1", date := 100
                         scheduled_departure_time := 600, email_id := "a@x.com" },
                       { flight_number := "F1", date := 100
                         scheduled_departure_time := 600, email_id := "b@x.com" }] }

/-- C9 counterexample: `listCrewFor` issues no `ORDER BY`, so the crew of
`F1` comes back in crew-table storage order — Zed before Ann — which is not
ordered by name. -/
theorem get_flight_crew_not_sorted_counterexample :
    get_flight_crew db9 "F1" 100 = .ok db9 [crewZed, crewAnn] ∧
    ¬ sortedByName [crewZed, crewAnn] :=
  ⟨by decide, by unfold sortedByName; decide⟩

/-- C9 (amended): for every existing flight instance, `listCrewFor` returns
exactly the crew members assigned to that flight, in the storage order of
the `crew` table (the result is a sublist of it); the final query has no
`ORDER BY`, so the list is not sorted by name. -/
theorem get_flight_crew_members :
    ∀ (db : DB) (fn : String) (d : Date) (flight : Flight),
      db.findFlight fn d = some flight →
      ∃ l, get_flight_crew db fn d = .ok db l ∧
        List.Sublist l db.crew ∧
        (∀ c, c ∈ l ↔ c ∈ db.crew ∧ ∃ s ∈ db.crew_schedules,
          s.flight_number = flight.flight_number ∧ s.date = flight.date ∧
          s.email_id = c.email_id) := by
  intro db fn d flight hfind
  unfold get_flight_crew
  rw [hfind]
  dsimp only
  by_cases hemp : (db.crew_schedules.filter (fun s =>
      s.flight_number == flight.flight_number && s.date == flight.date)).isEmpty = true
  · rw [if_pos hemp]
    refine ⟨[], rfl, List.nil_sublist _, ?_⟩
    intro c
    constructor
    · intro hc
      exact absurd hc (List.not_mem_nil c)
    · rintro ⟨-, s, hs, h1, h2, -⟩
      have hsf : s ∈ db.crew_schedules.filter (fun s =>
          s.flight_number == flight.flight_number && s.date == flight.date) := by
        rw [List.mem_filter]
        exact ⟨hs, by simp [h1, h2]⟩
      rw [List.isEmpty_iff] at hemp
      rw [hemp] at hsf
      exact absurd hsf (List.not_mem_nil s)
  · rw [if_neg hemp]
    refine ⟨_, rfl, List.filter_sublist _, ?_⟩
    intro c
    rw [List.mem_filter]
    constructor
    · rintro ⟨hc, hcont⟩
      refine ⟨hc, ?_⟩
      rw [List.contains_iff_exists_mem_beq] at hcont
      obtain ⟨e, he, hbeq⟩ := hcont
      rw [List.mem_map] at he
      obtain ⟨s, hsf, hse⟩ := he
      rw [List.mem_filter] at hsf
      obtain ⟨hs, hkey⟩ := hsf
      simp only [Bool.and_eq_true, beq_iff_eq] at hkey
      refine ⟨s, hs, hkey.1, hkey.2, ?_⟩
      rw [hse]
      exact (beq_iff_eq.mp hbeq).symm
    · rintro ⟨hc, s, hs, h1, h2, h3⟩
      refine ⟨hc, ?_⟩
      rw [List.contains_iff_exists_mem_beq]
      refine ⟨c.email_id, ?_, beq_self_eq_true c.email_id⟩
      rw [List.mem_map]
      refine ⟨s, ?_, h3⟩
      rw [List.mem_filter]
      exact ⟨hs, by simp [h1, h2]⟩

/-- Witness for C9 (amended): the concrete crew list of `F1` in `db9`. -/
theorem get_flight_crew_members_w :
    ∃ l, get_flight_crew db9 "F1" 100 = .ok db9 l ∧
      List.Sublist l db9.crew ∧
      (∀ c, c ∈ l ↔ c ∈ db9.crew ∧ ∃ s ∈ db9.crew_schedules,
        s.flight_number = exF1.flight_number ∧ s.date = exF1.date ∧
        s.email_id = c.email_id) :=
  get_flight_crew_members db9 "F1" 100 exF1 (by decide)

/-! ### Checkout timestamp iff completed -/

/-- The invariant of C10: a maintenance job carries a non-null checkout
timestamp exactly when its status is `completed`. -/
def CheckoutIffCompleted (db : DB) : Prop :=
  ∀ j ∈ db.maintenance_history,
    (j.checkout_date ≠ none ↔ j.status = MaintenanceStatus.completed)

theorem create_job_ok_inv {db db' : DB} {p : MaintenanceJobCreateRequest}
    {user : String} {now : Instant} (h : create_job db p user now = .ok db' ()) :
    db'.maintenance_history = db.maintenance_history ++
      [{ job_id := db.next_job_id
         checkin_date := now
         checkout_date := none
         status := MaintenanceStatus.pending
         remarks := p.remarks
         registration_number := p.aircraft_registration
         type := p.type }] := by
  unfold create_job at h
  try dsimp only at h
  repeat' split at h
  all_goals first
    | exact OpResult.noConfusion h
    | (injection h with h1 h2; rw [← h1])

theorem add_engineers_ok_mh {db db' : DB} {job_id : Nat}
    {p : AddEngineersToJobRequest} {user : String} {now : Instant}
    (h : add_engineers_to_job db job_id p user now = .ok db' ()) :
    db'.maintenance_history = db.maintenance_history := by
  unfold add_engineers_to_job at h
  try dsimp only at h
  repeat' split at h
  all_goals first
    | exact OpResult.noConfusion h
    | (injection h with h1 h2; rw [← h1])

theorem close_job_ok_inv {db db' : DB} {job_id : Nat} {remarks : Option String}
    {user : String} {now : Instant}
    (h : close_maintenance_job db job_id remarks user now = .ok db' ()) :
    ∃ mh, db'.maintenance_history =
      updateFirst (fun m => m.job_id == job_id) (fun _ => closedJob mh remarks now)
        db.maintenance_history := by
  unfold close_maintenance_job at h
  try dsimp only at h
  repeat' split at h
  all_goals first
    | exact OpResult.noConfusion h
    | (injection h with h1 h2; exact ⟨_, by rw [← h1]⟩)

/-- One successful maintenance-workflow mutation (`openJob`, `addEngineers`
or `closeJob`). -/
inductive MaintOpStep : DB → DB → Prop where
  | openJob : ∀ (db db' : DB) (p : MaintenanceJobCreateRequest) (user : String)
      (now : Instant), create_job db p user now = .ok db' () → MaintOpStep db db'
  | addEngineers : ∀ (db db' : DB) (job_id : Nat) (p : AddEngineersToJobRequest)
      (user : String) (now : Instant),
      add_engineers_to_job db job_id p user now = .ok db' () → MaintOpStep db db'
  | closeJob : ∀ (db db' : DB) (job_id : Nat) (remarks : Option String)
      (user : String) (now : Instant),
      close_maintenance_job db job_id remarks user now = .ok db' () →
      MaintOpStep db db'

theorem maintOpStep_preserves {db db' : DB} (h : MaintOpStep db db')
    (hI : CheckoutIffCompleted db) : CheckoutIffCompleted db' := by
  cases h with
  | openJob p user now hc =>
    intro j hj
    rw [create_job_ok_inv hc] at hj
    rcases List.mem_append.mp hj with hj | hj
    · exact hI j hj
    · rw [List.mem_singleton] at hj
      subst hj
      constructor
      · intro hne
        exact absurd rfl hne
      · intro hst
        exact MaintenanceStatus.noConfusion hst
  | addEngineers job_id p user now ha =>
    intro j hj
    rw [add_engineers_ok_mh ha] at hj
    exact hI j hj
  | closeJob job_id remarks user now hc =>
    intro j hj
    obtain ⟨mh, hmh⟩ := close_job_ok_inv hc
    rw [hmh] at hj
    rcases mem_updateFirst hj with hj | ⟨y, hy, hpy, hje⟩
    · exact hI j hj
    · subst hje
      constructor
      · intro _
        rfl
      · intro _
        intro hne
        exact Option.noConfusion hne

/-- C10: in every state reachable through the maintenance operations
(`openJob`, `addEngineers`, `closeJob`), a maintenance job has a non-null
checkout timestamp if and only if its status is `completed`: `openJob`
creates the job `pending` with a null checkout, `addEngineers` leaves the
job rows untouched, and only `closeJob` sets the checkout, together with the
`completed` status. -/
theorem checkout_iff_completed_reachable :
    ∀ db db', CheckoutIffCompleted db →
      Relation.ReflTransGen MaintOpStep db db' → CheckoutIffCompleted db' := by
  intro db db' hI hreach
  induction hreach with
  | refl => exact hI
  | tail _ hbc ih => exact maintOpStep_preserves hbc ih

/-- A fleet with one engineer and no jobs. -/
def maintDB0 : DB := { fleetDB with engineers := [engLead] }

def openReq : MaintenanceJobCreateRequest :=
  { aircraft_registration := "N100", type := MaintenanceType.routine, remarks := none }

/-- The state committed by `openJob` on `maintDB0`. -/
def maintDB1 : DB :=
  { maintDB0 with
    aircraft := [{ exN100 with status := AircraftStatus.maintenance }, exN200]
    maintenance_history := [{ job_id := 1
                              checkin_date := now0
                              checkout_date := none
                              status := MaintenanceStatus.pending
                              remarks := none
                              registration_number := "N100"
                              type := MaintenanceType.routine }]
    engineer_maintenances := [{ job_id := 1
                                engineer_email_id := "lead@x.com"
                                assigned_date := now0
                                role := "Leader" }]
    next_job_id := 2 }

/-- Witness for C10: after one concrete `openJob` step the invariant holds. -/
theorem checkout_iff_completed_reachable_w : CheckoutIffCompleted maintDB1 := by
  have hi : CheckoutIffCompleted maintDB0 := by
    intro j hj
    exact absurd hj (List.not_mem_nil j)
  exact checkout_iff_completed_reachable maintDB0 maintDB1 hi
    (Relation.ReflTransGen.single
      (MaintOpStep.openJob maintDB0 maintDB1 openReq "lead@x.com" now0 (by decide)))

end Pds
